import Mathlib

/-!
Verification of the query-engine core of the st2-cloud-pack repository.

The Lean definitions below are a shallow embedding of the Python sources:

* `lib/enums/query/props/server_properties.py` (`ServerProperties`),
* `lib/openstack_query/handlers/client_side_handler.py` (`ClientSideHandler`),
* `lib/openstack_query/query_builder.py` (`QueryBuilder`),
* `lib/openstack_query/query_parser.py` (`QueryParser`).

Python exceptions are modelled with `Except`; Python dictionaries are modelled
by association lists together with `dictSet`, which reproduces CPython's
insertion-order semantics (updating an existing key keeps its position and
replaces its value); Python's stable `list.sort` is modelled by insertion sort
(any two stable sorts agree extensionally, see the sorting lemmas below).
-/

namespace StackQuery

/-- Python exception classes that appear in the embedded code paths.
`attributeError` is the one exception caught by
`ClientSideHandler._filter_func_wrapper`; `keyError` and `typeError` are what
subscript access raises on mappings and non-subscriptable values. -/
inductive PyExc where
  | attributeError
  | keyError
  | typeError
deriving DecidableEq

/-- The exception classes raised by the query engine itself
(`exceptions/parse_query_error.py`, `exceptions/query_preset_mapping_error.py`,
`exceptions/query_property_mapping_error.py`), each carrying its message. -/
inductive QueryError where
  | parseQueryError (msg : String)
  | propertyMappingError (msg : String)
  | presetMappingError (msg : String)
deriving DecidableEq

/-- A model of the Python runtime values that flow through the filter
machinery: strings, ints, bools, None, lists and string-keyed dicts. -/
inductive PyVal where
  | vStr (s : String)
  | vInt (n : Int)
  | vBool (b : Bool)
  | vNone
  | vList (xs : List PyVal)
  | vDict (m : List (String × PyVal))

/-- Python type objects used in filter-function annotations; `isinstance`
checks against these. -/
inductive PyType where
  | tStr
  | tInt
  | tBool
  | tList
  | tDict
deriving DecidableEq

/-- Python's `isinstance` on the modelled values (a `bool` is an `int`
subclass, as in CPython). -/
def pyIsInstance : PyVal → PyType → Bool
  | .vStr _, .tStr => true
  | .vInt _, .tInt => true
  | .vBool _, .tBool => true
  | .vBool _, .tInt => true
  | .vList _, .tList => true
  | .vDict _, .tDict => true
  | _, _ => false

/-- Name of the Python type of a value, used in error messages. -/
def pyTypeName : PyVal → String
  | .vStr _ => "str"
  | .vInt _ => "int"
  | .vBool _ => "bool"
  | .vNone => "NoneType"
  | .vList _ => "list"
  | .vDict _ => "dict"

/-- Printed name of a Python type object, used in error messages. -/
def pyTypeStr : PyType → String
  | .tStr => "str"
  | .tInt => "int"
  | .tBool => "bool"
  | .tList => "list"
  | .tDict => "dict"

/-- Python subscript access `v[k]`: raises `KeyError` when a dict lacks the
key and `TypeError` when the value is not subscriptable by a string. -/
def subscr (v : PyVal) (k : String) : Except PyExc PyVal :=
  match v with
  | .vDict m =>
    match m.lookup k with
    | some x => .ok x
    | none => .error .keyError
  | _ => .error .typeError

/-! ### `ServerProperties` (lib/enums/query/props/server_properties.py) -/

/-- The `ServerProperties` enumeration. -/
inductive ServerProperties where
  | FLAVOR_ID
  | HYPERVISOR_ID
  | IMAGE_ID
  | PROJECT_ID
  | SERVER_CREATION_DATE
  | SERVER_DESCRIPTION
  | SERVER_ID
  | SERVER_LAST_UPDATED_DATE
  | SERVER_NAME
  | SERVER_STATUS
  | USER_ID
deriving DecidableEq

/-- The accessor table built inside `ServerProperties.get_prop_func`, in the
source's dictionary-literal order.  Each entry embeds the corresponding
`lambda a: a[...]` subscript accessor. -/
def serverPropMapping : List (ServerProperties × (PyVal → Except PyExc PyVal)) :=
  [ (.USER_ID, fun a => subscr a "user_id"),
    (.HYPERVISOR_ID, fun a => subscr a "host_id"),
    (.SERVER_ID, fun a => subscr a "id"),
    (.SERVER_NAME, fun a => subscr a "name"),
    (.SERVER_DESCRIPTION, fun a => subscr a "description"),
    (.SERVER_STATUS, fun a => subscr a "status"),
    (.SERVER_CREATION_DATE, fun a => subscr a "created_at"),
    (.SERVER_LAST_UPDATED_DATE, fun a => subscr a "updated_at"),
    (.FLAVOR_ID, fun a => subscr a "flavor_id"),
    (.IMAGE_ID, fun a => subscr a "image_id"),
    (.PROJECT_ID, fun a => do subscr (← subscr (← subscr a "location") "project") "id") ]

/-- Argument type of the `get_prop_func` static method: either a member of the
`ServerProperties` enumeration, or any other Python value (the code guards
with `if prop not in ServerProperties`). -/
inductive SPArg where
  | member (p : ServerProperties)
  | notAMember (descr : String)

/-- `ServerProperties.get_prop_func`.  The two leading `assert` statements
(exhaustiveness of the mapping) never fire, see `serverPropMapping_exhaustive`;
a non-member argument raises `QueryPropertyMappingError`, a member returns its
accessor from the mapping (the dead `none` branch models the `KeyError` that
`mapping[prop]` would raise were the mapping not exhaustive). -/
def ServerProperties.get_prop_func (prop : SPArg) :
    Except QueryError (PyVal → Except PyExc PyVal) :=
  match prop with
  | .notAMember _ =>
    .error (.propertyMappingError
      "Error: failed to get property mapping, property is not supported in ServerProperties")
  | .member p =>
    match serverPropMapping.lookup p with
    | some f => .ok f
    | none => .error (.propertyMappingError "unreachable: mapping is exhaustive")

/-- The accessor table covers every member of the enumeration (the condition
asserted by `ServerProperties.get_prop_func` before any lookup). -/
theorem serverPropMapping_exhaustive :
    ∀ p : ServerProperties, (serverPropMapping.lookup p).isSome = true := by
  intro p
  cases p <;> rfl

/-! ### Python dictionaries

CPython dictionaries preserve insertion order; assigning to an existing key
keeps its position and replaces its value.  `dictSet` models one `d[k] = v`
assignment (and hence `d.update({k: v})`) on an association-list model. -/

/-- One Python dictionary assignment `d[k] = v`. -/
def dictSet {K V : Type} [DecidableEq K] : List (K × V) → K → V → List (K × V)
  | [], k, v => [(k, v)]
  | (k', v') :: rest, k, v =>
    if k = k' then (k, v) :: rest else (k', v') :: dictSet rest k v

/-- Python dictionary lookup `d[k]` / `d.get(k)`. -/
def dictGet {K V : Type} [DecidableEq K] : List (K × V) → K → Option V
  | [], _ => none
  | (k', v) :: rest, k => if k = k' then some v else dictGet rest k

/-! ### `ClientSideHandler` (lib/openstack_query/handlers/client_side_handler.py) -/

/-- The kind of a parameter in a Python function signature, as reported by
`inspect.signature`. -/
inductive ParamKind where
  | positionalOnly
  | positionalOrKeyword
  | varPositional
  | keywordOnly
  | varKeyword
deriving DecidableEq

/-- A parameter's annotation: `Any`, absent (`inspect.Parameter.empty`), or a
concrete type object. -/
inductive PyAnnot where
  | any
  | empty
  | ty (t : PyType)
deriving DecidableEq

/-- One parameter of a Python function signature.  `hasDefault` is false
exactly when `param.default == inspect.Parameter.empty`. -/
structure PyParam where
  name : String
  kind : ParamKind
  hasDefault : Bool
  annot : PyAnnot

/-- A raw client-side filter function: its `inspect` signature (`params`
includes the leading positional parameter that receives the extracted
property value) and its call behaviour on a property value plus keyword
arguments. -/
structure FilterFunc where
  params : List PyParam
  call : PyVal → List (String × PyVal) → Except PyExc Bool

/-- The reason component of a failed `_check_filter_func` validation. -/
inductive CheckFail where
  | wrongType (pname : String) (expected : PyType) (found : String)
  | missingParam (pname : String)
  | unexpectedArgs (names : List String)
deriving DecidableEq

/-- Rendering of a validation-failure reason, following the source's message
strings. -/
def checkFailMsg : CheckFail → String
  | .wrongType pname expected found =>
    pname ++ " given has incorrect type, expected " ++ pyTypeStr expected ++ ", found " ++ found
  | .missingParam pname => pname ++ " expected but not given"
  | .unexpectedArgs names => "unexpected arguments: " ++ String.intercalate ", " names

/-- The body of the validation loop of `_check_filter_func` for a single
parameter: parameters that are not POSITIONAL_OR_KEYWORD are skipped; a
supplied value is type-checked against the annotation when one is declared;
an absent value fails when the parameter has no default. -/
def paramFail (funcKwargs : List (String × PyVal)) (param : PyParam) : Option CheckFail :=
  if param.kind = ParamKind.positionalOrKeyword then
    match dictGet funcKwargs param.name with
    | some v =>
      match param.annot with
      | .ty t =>
        if pyIsInstance v t then none
        else some (.wrongType param.name t (pyTypeName v))
      | _ => none
    | none => if param.hasDefault then none else some (.missingParam param.name)
  else none

/-- `ClientSideHandler._check_filter_func`: validates caller kwargs against the
function signature minus its first parameter.  Returns `none` when the kwargs
are accepted, mirroring the source's `(True, "")`, and the failure reason
otherwise.  The loop's first failure wins (`List.findSome?`); the extra-keys
check runs only when the loop accepts and the function takes neither `*args`
nor `**kwargs`. -/
def checkFilterFunc (func : FilterFunc) (funcKwargs : List (String × PyVal)) :
    Option CheckFail :=
  match (func.params.drop 1).findSome? (paramFail funcKwargs) with
  | some r => some r
  | none =>
    if !((func.params.drop 1).any (fun p => decide (p.kind = ParamKind.varPositional)))
        && !((func.params.drop 1).any (fun p => decide (p.kind = ParamKind.varKeyword))) then
      if ((funcKwargs.map Prod.fst).filter
            (fun k => (func.params.drop 1).all (fun p => decide (p.name ≠ k)))).isEmpty then
        none
      else
        some (.unexpectedArgs ((funcKwargs.map Prod.fst).filter
          (fun k => (func.params.drop 1).all (fun p => decide (p.name ≠ k)))))
    else none

/-- An entry in a preset's supported-property list: either a concrete property
enum member or the `"*"` wildcard string. -/
inductive PropEntry (P : Type) where
  | prop (p : P)
  | star
deriving DecidableEq

/-- A client-side handler.  `filterFunctionMappings` is the constructor
argument `filter_func_mappings` (preset to supported properties).
`filterFunctions` models the subclass attribute `_filter_functions` that
`get_filter_func` reads.  Modelled from the spec for its shape: the preset
handler subclasses are not part of the sources at hand; the spec states the
lookup keys only on the preset in the base implementation. -/
structure ClientSideHandler (Preset P : Type) where
  filterFunctionMappings : List (Preset × List (PropEntry P))
  filterFunctions : List (Preset × FilterFunc)

variable {Preset P : Type}

/-- `ClientSideHandler.preset_known`. -/
def ClientSideHandler.preset_known [DecidableEq Preset]
    (h : ClientSideHandler Preset P) (preset : Preset) : Bool :=
  (dictGet h.filterFunctionMappings preset).isSome

/-- `ClientSideHandler.check_supported`: true when the handler knows the
preset and either lists the property for it or declares the `["*"]`
wildcard. -/
def ClientSideHandler.check_supported [DecidableEq Preset] [DecidableEq P]
    (h : ClientSideHandler Preset P) (preset : Preset) (prop : P) : Bool :=
  match dictGet h.filterFunctionMappings preset with
  | none => false
  | some l =>
    if PropEntry.prop prop ∈ l then true
    else if l = [PropEntry.star] then true
    else false

/-- `ClientSideHandler._filter_func_wrapper`: extract the property; only
`AttributeError` is caught and turned into `False`, any other exception
propagates; otherwise the raw filter function is invoked on the extracted
value and the kwargs (Python's two call forms `f(prop)` and
`f(prop, **kwargs)` coincide with the kwargs-list model, where an absent or
empty kwargs dict is the empty list). -/
def filter_func_wrapper (item : PyVal) (selectedFilterFunc : FilterFunc)
    (selectedPropFunc : PyVal → Except PyExc PyVal)
    (filterFuncKwargs : List (String × PyVal)) : Except PyExc Bool :=
  match selectedPropFunc item with
  | .error .attributeError => .ok false
  | .error e => .error e
  | .ok itemProp => selectedFilterFunc.call itemProp filterFuncKwargs

/-- Message raised when the preset-keyed function lookup fails. -/
def presetNotFoundMsg : String :=
  "Preset Not Found: failed to find filter_function mapping for preset and property pair - does the preset work with property specified?"

/-- Message head of the kwargs-validation failure raised by
`get_filter_func`. -/
def presetArgErrHead : String :=
  "Preset Argument Error: failed to build client-side filter function, reason: "

/-- `ClientSideHandler.get_filter_func`: gate on `check_supported`, fetch the
raw function (keyed only on the preset), validate the kwargs, and return the
wrapped predicate.  Error messages follow the source with the enum-name
interpolations elided (no claim depends on them). -/
def ClientSideHandler.get_filter_func [DecidableEq Preset] [DecidableEq P]
    (h : ClientSideHandler Preset P) (preset : Preset) (prop : P)
    (prop_func : PyVal → Except PyExc PyVal)
    (filter_func_kwargs : List (String × PyVal)) :
    Except QueryError (PyVal → Except PyExc Bool) :=
  match (if h.check_supported preset prop then dictGet h.filterFunctions preset else none) with
  | none => .error (.presetMappingError presetNotFoundMsg)
  | some f =>
    match checkFilterFunc f filter_func_kwargs with
    | some reason =>
      .error (.presetMappingError (presetArgErrHead ++ checkFailMsg reason))
    | none => .ok (fun resource => filter_func_wrapper resource f prop_func filter_func_kwargs)

/-! ### `QueryBuilder` (lib/openstack_query/query_builder.py) -/

/-- Message raised by `_get_preset_handler` when no handler knows the preset
(misconfigured resource). -/
def presetUnknownMsg : String :=
  "No client-side handler found for preset - resource likely does not support querying using this preset"

/-- Message raised by `_get_preset_handler` when some handler knows the preset
but none supports it for the requested property. -/
def presetIncompatibleMsg : String :=
  "No client-side handler found for preset - this query is likely misconfigured/preset is not supported on resource"

/-- `QueryBuilder._get_preset_handler`: if no handler recognizes the preset at
all, raise the misconfigured-resource error; otherwise scan the handler list
in order and return the first whose `check_supported` accepts the pair; if
none does, raise the incompatible-pair error. -/
def get_preset_handler [DecidableEq Preset] [DecidableEq P]
    (client_side_handlers : List (ClientSideHandler Preset P))
    (preset : Preset) (prop : P) :
    Except QueryError (ClientSideHandler Preset P) :=
  if !(client_side_handlers.any (fun i => i.preset_known preset)) then
    .error (.presetMappingError presetUnknownMsg)
  else
    match client_side_handlers.find? (fun i => i.check_supported preset prop) with
    | some i => .ok i
    | none => .error (.presetMappingError presetIncompatibleMsg)

/-- The property handler the builder consults.  Modelled from the spec: the
PropHandler class file is not among the sources at hand; per the spec's
PropertyRegistry contract, `get_prop_func` returns the accessor for a
property or nothing when no mapping exists (the builder only tests the result
for truthiness and calls it). -/
structure BuilderPropHandler (P : Type) where
  get_prop_func : P → Option (PyVal → Except PyExc PyVal)

/-- The collaborators a `QueryBuilder` instance is constructed with.
`server_side_get_filters` models `ServerSideHandler.get_filters`, from the
spec: the server-side handler file is not among the sources at hand; per the
spec it is a best-effort lookup returning remote filter parameters or nothing,
with no validation. -/
structure QueryBuilderDeps (Preset P : Type) where
  prop_handler : BuilderPropHandler P
  client_side_handlers : List (ClientSideHandler Preset P)
  server_side_get_filters :
    Preset → P → List (String × PyVal) → Option (List (String × PyVal))

/-- The mutable state of a `QueryBuilder`: the two fields set by
`parse_where` and exposed through the read-only accessors. -/
structure QueryBuilderState where
  client_side_filter : Option (PyVal → Except PyExc Bool)
  server_side_filters : Option (List (String × PyVal))

/-- The state of a freshly constructed `QueryBuilder`. -/
def freshBuilder : QueryBuilderState := { client_side_filter := none, server_side_filters := none }

/-- `QueryBuilder.parse_where`.  A second call on a builder whose filter is
already set fails immediately (a stored filter function is always truthy);
then the property accessor is resolved, the preset handler selected, the
predicate built and the server-side filters fetched best-effort. -/
def parse_where [DecidableEq Preset] [DecidableEq P]
    (deps : QueryBuilderDeps Preset P) (st : QueryBuilderState)
    (preset : Preset) (prop : P) (preset_kwargs : List (String × PyVal)) :
    Except QueryError QueryBuilderState :=
  if st.client_side_filter.isSome then
    .error (.parseQueryError "Error: Already set a query preset")
  else
    match deps.prop_handler.get_prop_func prop with
    | none =>
      .error (.propertyMappingError
        "Error: failed to get property mapping, given property is not supported in prop_handler")
    | some prop_func =>
      match get_preset_handler deps.client_side_handlers preset prop with
      | .error e => .error e
      | .ok preset_handler =>
        match preset_handler.get_filter_func preset prop prop_func preset_kwargs with
        | .error e => .error e
        | .ok f =>
          .ok { client_side_filter := some f,
                server_side_filters := deps.server_side_get_filters preset prop preset_kwargs }

/-! ### Test fixtures

Concrete instantiations used by the witness and counterexample theorems.
The preset handler subclasses and their filter functions are not among the
sources at hand, so representative concrete filter functions are used; their
call behaviour is irrelevant to the statements that mention them. -/

/-- A representative one-kwarg filter function (an equality filter): first
parameter receives the property value, the `value` kwarg the comparison
operand. -/
def sampleFilterFunc : FilterFunc :=
  { params := [ ⟨"prop", .positionalOrKeyword, false, .any⟩,
                ⟨"value", .positionalOrKeyword, false, .any⟩ ],
    call := fun itemProp kwargs =>
      match itemProp, dictGet kwargs "value" with
      | .vInt a, some (.vInt b) => .ok (decide (a = b))
      | _, _ => .error .typeError }

/-- A representative filter function with a required, int-annotated kwarg. -/
def sampleFilterFunc2 : FilterFunc :=
  { params := [ ⟨"prop", .positionalOrKeyword, false, .any⟩,
                ⟨"days", .positionalOrKeyword, false, .ty .tInt⟩ ],
    call := fun _ _ => .ok true }

/-- A handler supporting the `equal_to` preset on all properties. -/
def sampleHandler : ClientSideHandler String ServerProperties :=
  { filterFunctionMappings := [("equal_to", [PropEntry.star])],
    filterFunctions := [("equal_to", sampleFilterFunc)] }

/-- A handler supporting the `older_than` preset on all properties. -/
def sampleHandler2 : ClientSideHandler String ServerProperties :=
  { filterFunctionMappings := [("older_than", [PropEntry.star])],
    filterFunctions := [("older_than", sampleFilterFunc2)] }

/-- A handler that knows the `equal_to` preset but supports no property for
it. -/
def emptyPropsHandler : ClientSideHandler String ServerProperties :=
  { filterFunctionMappings := [("equal_to", [])],
    filterFunctions := [] }

/-- A handler with no mappings at all. -/
def blankHandler : ClientSideHandler String ServerProperties :=
  { filterFunctionMappings := [], filterFunctions := [] }

/-- The `USER_ID` accessor of the `ServerProperties` registry. -/
def userIdAccessor : PyVal → Except PyExc PyVal := fun a => subscr a "user_id"

/-- An accessor that fails with `AttributeError`, as attribute-style property
access does on a record lacking the attribute. -/
def attrFailAccessor : PyVal → Except PyExc PyVal := fun _ => .error .attributeError

/-! ### Claim C8 -/

/-- C8: every member of the `ServerProperties` enumeration resolves to an
accessor through `get_prop_func` (the table is exhaustive), and any input
that is not a member of the enumeration raises `QueryPropertyMappingError`. -/
theorem C8_get_prop_func_total :
    (∀ p : ServerProperties, ∃ f, ServerProperties.get_prop_func (.member p) = .ok f)
    ∧ (∀ s : String, ServerProperties.get_prop_func (.notAMember s) =
        .error (.propertyMappingError
          "Error: failed to get property mapping, property is not supported in ServerProperties")) := by
  constructor
  · intro p
    cases p <;> exact ⟨_, rfl⟩
  · intro s
    rfl

/-! ### Claim C4 -/

/-- A pair supported by a handler implies the preset is known to it. -/
theorem ClientSideHandler.check_supported_known [DecidableEq Preset] [DecidableEq P]
    (h : ClientSideHandler Preset P) (preset : Preset) (prop : P)
    (hcs : h.check_supported preset prop = true) : h.preset_known preset = true := by
  unfold ClientSideHandler.check_supported at hcs
  unfold ClientSideHandler.preset_known
  cases hd : dictGet h.filterFunctionMappings preset with
  | none => rw [hd] at hcs; cases hcs
  | some l => rfl

/-- C4: `_get_preset_handler` raises the misconfigured-resource
`PresetMappingError` when no handler knows the preset; raises a distinct
`PresetMappingError` when some handler knows the preset but none supports the
(preset, property) pair; and otherwise returns the first handler in list
order whose `check_supported` accepts the pair. -/
theorem C4_preset_handler_selection [DecidableEq Preset] [DecidableEq P]
    (handlers : List (ClientSideHandler Preset P)) (preset : Preset) (prop : P) :
    ((∀ h ∈ handlers, h.preset_known preset = false) →
        get_preset_handler handlers preset prop = .error (.presetMappingError presetUnknownMsg))
    ∧ ((∃ h ∈ handlers, h.preset_known preset = true) →
        (∀ h ∈ handlers, h.check_supported preset prop = false) →
        get_preset_handler handlers preset prop = .error (.presetMappingError presetIncompatibleMsg))
    ∧ QueryError.presetMappingError presetUnknownMsg ≠
        QueryError.presetMappingError presetIncompatibleMsg
    ∧ (∀ pre h post, handlers = pre ++ h :: post →
        (∀ h' ∈ pre, h'.check_supported preset prop = false) →
        h.check_supported preset prop = true →
        get_preset_handler handlers preset prop = .ok h) := by
  refine ⟨?_, ?_, ?_, ?_⟩
  · intro hall
    have hany : handlers.any (fun i => i.preset_known preset) = false := by
      simp only [List.any_eq_false]
      intro x hx
      simp [hall x hx]
    simp [get_preset_handler, hany]
  · rintro ⟨h0, hmem, hknown⟩ hall
    have hany : handlers.any (fun i => i.preset_known preset) = true :=
      List.any_eq_true.mpr ⟨h0, hmem, hknown⟩
    have hfind : handlers.find? (fun i => i.check_supported preset prop) = none := by
      simp only [List.find?_eq_none]
      intro x hx
      simp [hall x hx]
    simp [get_preset_handler, hany, hfind]
  · intro hcontr
    have := QueryError.presetMappingError.inj hcontr
    exact absurd this (by decide)
  · intro pre h0 post heq hpre hsup
    have hknown := h0.check_supported_known preset prop hsup
    subst heq
    have hany : (pre ++ h0 :: post).any (fun i => i.preset_known preset) = true :=
      List.any_eq_true.mpr ⟨h0, by simp, hknown⟩
    have h1 : pre.find? (fun i => i.check_supported preset prop) = none := by
      simp only [List.find?_eq_none]
      intro x hx
      simp [hpre x hx]
    have hfind : (pre ++ h0 :: post).find? (fun i => i.check_supported preset prop) = some h0 := by
      rw [List.find?_append, h1]
      simp [List.find?_cons, hsup]
    simp [get_preset_handler, hany, hfind]

/-- Concrete check of C4: a blank handler is skipped and the first supporting
handler is selected; a handler list that does not know the preset gives the
misconfigured-resource error; a list that knows the preset but supports no
property for it gives the distinct incompatible-pair error. -/
theorem C4_preset_handler_selection_witness :
    get_preset_handler [blankHandler, sampleHandler] "equal_to" ServerProperties.USER_ID =
      .ok sampleHandler
    ∧ get_preset_handler [blankHandler] "equal_to" ServerProperties.USER_ID =
      .error (.presetMappingError presetUnknownMsg)
    ∧ get_preset_handler [emptyPropsHandler] "equal_to" ServerProperties.USER_ID =
      .error (.presetMappingError presetIncompatibleMsg)
    ∧ QueryError.presetMappingError presetUnknownMsg ≠
        QueryError.presetMappingError presetIncompatibleMsg := by
  refine ⟨?_, ?_, ?_, ?_⟩
  · exact (C4_preset_handler_selection [blankHandler, sampleHandler] "equal_to"
      ServerProperties.USER_ID).2.2.2 [blankHandler] sampleHandler []
      rfl (by intro h' hm; simp at hm; subst hm; rfl) rfl
  · exact (C4_preset_handler_selection [blankHandler] "equal_to"
      ServerProperties.USER_ID).1
      (by intro h hm; simp at hm; subst hm; rfl)
  · exact (C4_preset_handler_selection [emptyPropsHandler] "equal_to"
      ServerProperties.USER_ID).2.1
      ⟨emptyPropsHandler, by simp, rfl⟩
      (by intro h hm; simp at hm; subst hm; rfl)
  · exact (C4_preset_handler_selection [blankHandler] "equal_to"
      ServerProperties.USER_ID).2.2.1

/-! ### Claim C1 -/

/-- Helper: a successful `get_filter_func` returns exactly the wrapper closed
over the preset's raw filter function, the accessor and the kwargs. -/
theorem get_filter_func_ok_shape [DecidableEq Preset] [DecidableEq P]
    (h : ClientSideHandler Preset P) (preset : Preset) (prop : P)
    (prop_func : PyVal → Except PyExc PyVal) (kwargs : List (String × PyVal))
    (pred : PyVal → Except PyExc Bool)
    (hok : h.get_filter_func preset prop prop_func kwargs = .ok pred) :
    ∃ f, dictGet h.filterFunctions preset = some f
      ∧ pred = fun resource => filter_func_wrapper resource f prop_func kwargs := by
  unfold ClientSideHandler.get_filter_func at hok
  cases hif : (if h.check_supported preset prop then dictGet h.filterFunctions preset else none) with
  | none =>
    simp only [hif] at hok
    exact Except.noConfusion hok
  | some f =>
    simp only [hif] at hok
    cases hchk : checkFilterFunc f kwargs with
    | some r =>
      simp only [hchk] at hok
      exact Except.noConfusion hok
    | none =>
      simp only [hchk] at hok
      refine ⟨f, ?_, (Except.ok.inj hok).symm⟩
      cases hcs : h.check_supported preset prop with
      | false => rw [hcs] at hif; cases hif
      | true => rw [hcs] at hif; simpa using hif

/-- C1 (amended): a predicate built by `get_filter_func` returns false and
does not raise when the accessor fails with `AttributeError` on the record,
and it does so without invoking the raw filter function (the result is the
same for every filter function); this holds uniformly for every preset,
property and validated kwargs.  (As stated the claim is false: only
`AttributeError` is caught, and the subscript-style accessors of
`ServerProperties` fail with `KeyError`, which propagates — see
`C1_missing_prop_counterexample`.) -/
theorem C1_missing_prop_returns_false [DecidableEq Preset] [DecidableEq P]
    (h : ClientSideHandler Preset P) (preset : Preset) (prop : P)
    (prop_func : PyVal → Except PyExc PyVal) (kwargs : List (String × PyVal))
    (pred : PyVal → Except PyExc Bool)
    (hok : h.get_filter_func preset prop prop_func kwargs = .ok pred)
    (item : PyVal) (hmiss : prop_func item = .error .attributeError) :
    pred item = .ok false
    ∧ ∀ g : FilterFunc, filter_func_wrapper item g prop_func kwargs = .ok false := by
  obtain ⟨f, -, hpred⟩ := get_filter_func_ok_shape h preset prop prop_func kwargs pred hok
  have hwrap : ∀ g : FilterFunc, filter_func_wrapper item g prop_func kwargs = .ok false := by
    intro g
    unfold filter_func_wrapper
    rw [hmiss]
  exact ⟨by rw [hpred]; exact hwrap f, hwrap⟩

/-- The predicate that `get_filter_func` builds in the C1 counterexample. -/
def c1KeyErrorPred : PyVal → Except PyExc Bool := fun resource =>
  filter_func_wrapper resource sampleFilterFunc userIdAccessor [("value", PyVal.vInt 1)]

/-- C1 counterexample: with the registry's own `USER_ID` accessor and a record
(an empty mapping) missing that property, extraction fails with `KeyError`,
and the predicate built by `get_filter_func` propagates the exception instead
of returning false — the claim's "returns false and never raises" fails. -/
theorem C1_missing_prop_counterexample :
    ServerProperties.get_prop_func (.member .USER_ID) = .ok userIdAccessor
    ∧ sampleHandler.get_filter_func "equal_to" ServerProperties.USER_ID
        userIdAccessor [("value", PyVal.vInt 1)] = .ok c1KeyErrorPred
    ∧ userIdAccessor (PyVal.vDict []) = .error PyExc.keyError
    ∧ c1KeyErrorPred (PyVal.vDict []) = .error PyExc.keyError
    ∧ c1KeyErrorPred (PyVal.vDict []) ≠ .ok false := by
  refine ⟨rfl, rfl, rfl, rfl, ?_⟩
  intro hcontr
  cases hcontr

/-- The predicate that `get_filter_func` builds over an accessor failing with
`AttributeError`. -/
def c1AttrPred : PyVal → Except PyExc Bool := fun resource =>
  filter_func_wrapper resource sampleFilterFunc attrFailAccessor [("value", PyVal.vInt 1)]

/-- Concrete check of C1 (amended): on an accessor failing with
`AttributeError`, the built predicate returns false, and so does the wrapper
around any other filter function. -/
theorem C1_missing_prop_returns_false_witness :
    c1AttrPred PyVal.vNone = .ok false
    ∧ filter_func_wrapper PyVal.vNone sampleFilterFunc2 attrFailAccessor
        [("value", PyVal.vInt 1)] = .ok false := by
  have h := C1_missing_prop_returns_false sampleHandler "equal_to" ServerProperties.USER_ID
    attrFailAccessor [("value", PyVal.vInt 1)] c1AttrPred (by rfl) PyVal.vNone rfl
  exact ⟨h.1, h.2 sampleFilterFunc2⟩
/-! ### Claim C5 -/

/-- Helper: a kwargs-validation failure surfaces through `get_filter_func`
as a `PresetMappingError` carrying the failure reason. -/
theorem get_filter_func_of_check_fail [DecidableEq Preset] [DecidableEq P]
    (h : ClientSideHandler Preset P) (preset : Preset) (prop : P)
    (prop_func : PyVal → Except PyExc PyVal) (kwargs : List (String × PyVal))
    (f : FilterFunc) (r : CheckFail)
    (hsup : h.check_supported preset prop = true)
    (hfun : dictGet h.filterFunctions preset = some f)
    (hchk : checkFilterFunc f kwargs = some r) :
    h.get_filter_func preset prop prop_func kwargs =
      .error (.presetMappingError (presetArgErrHead ++ checkFailMsg r)) := by
  unfold ClientSideHandler.get_filter_func
  simp [hsup, hfun, hchk]

/-- Helper: the validation loop returns the failure of the first offending
parameter when all earlier parameters pass. -/
theorem findSome?_first_fail {kwargs : List (String × PyVal)}
    (pre : List PyParam) (param : PyParam) (post : List PyParam) (r : CheckFail)
    (hpre : ∀ q ∈ pre, paramFail kwargs q = none)
    (hp : paramFail kwargs param = some r) :
    (pre ++ param :: post).findSome? (paramFail kwargs) = some r := by
  rw [List.findSome?_append, List.findSome?_eq_none_iff.mpr hpre]
  rw [Option.none_or]
  rw [List.findSome?_cons_of_isSome _ (by simp [hp])]
  exact hp

/-- Helper: a failing validation loop makes `_check_filter_func` fail with
that reason. -/
theorem checkFilterFunc_of_loop_fail (f : FilterFunc) (kwargs : List (String × PyVal))
    (r : CheckFail)
    (hloop : (f.params.drop 1).findSome? (paramFail kwargs) = some r) :
    checkFilterFunc f kwargs = some r := by
  unfold checkFilterFunc
  rw [hloop]

/-- C5: `get_filter_func` validates the caller kwargs against the matched
filter function's parameters minus the first: a POSITIONAL_OR_KEYWORD
parameter without a default absent from the kwargs (the function accepting no
arbitrary keyword arguments) raises `PresetMappingError` naming that
parameter; a supplied value violating the parameter's type annotation raises
`PresetMappingError` naming the parameter and types; and when the function
accepts neither arbitrary positional nor keyword arguments, any kwargs key
matching no declared parameter raises `PresetMappingError`.  (The first two
parts name the first offending parameter in declaration order, as the
validation loop returns its first failure.) -/
theorem C5_kwargs_validation [DecidableEq Preset] [DecidableEq P]
    (h : ClientSideHandler Preset P) (preset : Preset) (prop : P)
    (prop_func : PyVal → Except PyExc PyVal) (kwargs : List (String × PyVal))
    (f : FilterFunc)
    (hsup : h.check_supported preset prop = true)
    (hfun : dictGet h.filterFunctions preset = some f) :
    (∀ pre param post, f.params.drop 1 = pre ++ param :: post →
        (∀ q ∈ pre, paramFail kwargs q = none) →
        param.kind = ParamKind.positionalOrKeyword →
        param.hasDefault = false →
        dictGet kwargs param.name = none →
        (f.params.drop 1).any (fun p => decide (p.kind = ParamKind.varKeyword)) = false →
        h.get_filter_func preset prop prop_func kwargs =
          .error (.presetMappingError
            (presetArgErrHead ++ checkFailMsg (.missingParam param.name))))
    ∧ (∀ pre param post v t, f.params.drop 1 = pre ++ param :: post →
        (∀ q ∈ pre, paramFail kwargs q = none) →
        param.kind = ParamKind.positionalOrKeyword →
        dictGet kwargs param.name = some v →
        param.annot = PyAnnot.ty t →
        pyIsInstance v t = false →
        h.get_filter_func preset prop prop_func kwargs =
          .error (.presetMappingError
            (presetArgErrHead ++ checkFailMsg (.wrongType param.name t (pyTypeName v)))))
    ∧ (∀ k, (f.params.drop 1).any (fun p => decide (p.kind = ParamKind.varPositional)) = false →
        (f.params.drop 1).any (fun p => decide (p.kind = ParamKind.varKeyword)) = false →
        k ∈ kwargs.map Prod.fst →
        (∀ q ∈ f.params.drop 1, q.name ≠ k) →
        ∃ msg, h.get_filter_func preset prop prop_func kwargs =
          .error (.presetMappingError msg)) := by
  refine ⟨?_, ?_, ?_⟩
  · intro pre param post hps hpre hkind hdef habs _
    have hp : paramFail kwargs param = some (.missingParam param.name) := by
      unfold paramFail
      simp [hkind, habs, hdef]
    exact get_filter_func_of_check_fail h preset prop prop_func kwargs f _ hsup hfun
      (checkFilterFunc_of_loop_fail f kwargs _
        (hps ▸ findSome?_first_fail pre param post _ hpre hp))
  · intro pre param post v t hps hpre hkind hlook hann hinst
    have hp : paramFail kwargs param = some (.wrongType param.name t (pyTypeName v)) := by
      unfold paramFail
      simp [hkind, hlook, hann, hinst]
    exact get_filter_func_of_check_fail h preset prop prop_func kwargs f _ hsup hfun
      (checkFilterFunc_of_loop_fail f kwargs _
        (hps ▸ findSome?_first_fail pre param post _ hpre hp))
  · intro k hva hvk hk hnames
    cases hloop : (f.params.drop 1).findSome? (paramFail kwargs) with
    | some r =>
      exact ⟨_, get_filter_func_of_check_fail h preset prop prop_func kwargs f r hsup hfun
        (checkFilterFunc_of_loop_fail f kwargs r hloop)⟩
    | none =>
      have hpredk : (f.params.drop 1).all (fun p => decide (p.name ≠ k)) = true := by
        rw [List.all_eq_true]
        intro p hp
        exact decide_eq_true (hnames p hp)
      have hmemf : k ∈ (kwargs.map Prod.fst).filter
          (fun k0 => (f.params.drop 1).all (fun p => decide (p.name ≠ k0))) :=
        List.mem_filter.mpr ⟨hk, hpredk⟩
      have hemp : ((kwargs.map Prod.fst).filter
          (fun k0 => (f.params.drop 1).all (fun p => decide (p.name ≠ k0)))).isEmpty = false := by
        rw [List.isEmpty_eq_false]
        exact List.ne_nil_of_mem hmemf
      have hchk : checkFilterFunc f kwargs = some (.unexpectedArgs
          ((kwargs.map Prod.fst).filter
            (fun k0 => (f.params.drop 1).all (fun p => decide (p.name ≠ k0))))) := by
        unfold checkFilterFunc
        rw [hloop, hva, hvk, hemp]
        rfl
      exact ⟨_, get_filter_func_of_check_fail h preset prop prop_func kwargs f _ hsup hfun hchk⟩

/-- Concrete checks of C5 on a filter function requiring an int-annotated
`days` kwarg: missing kwarg, wrongly typed kwarg, and an extra undeclared
kwarg each raise `PresetMappingError` with the corresponding reason. -/
theorem C5_kwargs_validation_witness :
    sampleHandler2.get_filter_func "older_than" ServerProperties.SERVER_ID attrFailAccessor [] =
      .error (.presetMappingError (presetArgErrHead ++ checkFailMsg (.missingParam "days")))
    ∧ sampleHandler2.get_filter_func "older_than" ServerProperties.SERVER_ID attrFailAccessor
        [("days", PyVal.vStr "ten")] =
      .error (.presetMappingError (presetArgErrHead ++ checkFailMsg
        (.wrongType "days" PyType.tInt "str")))
    ∧ sampleHandler2.get_filter_func "older_than" ServerProperties.SERVER_ID attrFailAccessor
        [("days", PyVal.vInt 10), ("bogus", PyVal.vNone)] =
      .error (.presetMappingError (presetArgErrHead ++ checkFailMsg
        (.unexpectedArgs ["bogus"]))) := by
  refine ⟨?_, ?_, ?_⟩
  · exact (C5_kwargs_validation sampleHandler2 "older_than" ServerProperties.SERVER_ID
      attrFailAccessor [] sampleFilterFunc2 (by rfl) rfl).1
      [] ⟨"days", .positionalOrKeyword, false, .ty .tInt⟩ [] rfl
      (by intro q hq; cases hq) rfl rfl rfl (by rfl)
  · exact (C5_kwargs_validation sampleHandler2 "older_than" ServerProperties.SERVER_ID
      attrFailAccessor [("days", PyVal.vStr "ten")] sampleFilterFunc2 (by rfl) rfl).2.1
      [] ⟨"days", .positionalOrKeyword, false, .ty .tInt⟩ [] (PyVal.vStr "ten") PyType.tInt rfl
      (by intro q hq; cases hq) rfl rfl rfl rfl
  · obtain ⟨msg, hmsg⟩ := (C5_kwargs_validation sampleHandler2 "older_than"
      ServerProperties.SERVER_ID attrFailAccessor
      [("days", PyVal.vInt 10), ("bogus", PyVal.vNone)] sampleFilterFunc2 (by rfl) rfl).2.2
      "bogus" (by rfl) (by rfl) (by decide) (by decide)
    rw [hmsg, ← hmsg]
    rfl
/-! ### Claim C3 -/

/-- C3: once `parse_where` has completed successfully on a builder, any second
`parse_where` call on the resulting state raises `ParseQueryError`, whatever
its arguments. -/
theorem C3_parse_where_twice [DecidableEq Preset] [DecidableEq P]
    (deps : QueryBuilderDeps Preset P) (st : QueryBuilderState)
    (preset : Preset) (prop : P) (kwargs : List (String × PyVal))
    (st' : QueryBuilderState)
    (hok : parse_where deps st preset prop kwargs = .ok st')
    (preset2 : Preset) (prop2 : P) (kwargs2 : List (String × PyVal)) :
    parse_where deps st' preset2 prop2 kwargs2 =
      .error (.parseQueryError "Error: Already set a query preset") := by
  have hsome : st'.client_side_filter.isSome = true := by
    unfold parse_where at hok
    cases hfl : st.client_side_filter.isSome with
    | true => simp [hfl] at hok
    | false =>
      simp only [hfl, Bool.false_eq_true, if_false] at hok
      cases hpf : deps.prop_handler.get_prop_func prop with
      | none => simp [hpf] at hok
      | some prop_func =>
        simp only [hpf] at hok
        cases hph : get_preset_handler deps.client_side_handlers preset prop with
        | error e => simp [hph] at hok
        | ok preset_handler =>
          simp only [hph] at hok
          cases hgf : preset_handler.get_filter_func preset prop prop_func kwargs with
          | error e => simp [hgf] at hok
          | ok f =>
            simp only [hgf] at hok
            rw [← Except.ok.inj hok]
            rfl
  unfold parse_where
  rw [hsome]
  rfl

/-- The builder collaborators used in the concrete C3 check. -/
def sampleDeps : QueryBuilderDeps String ServerProperties :=
  { prop_handler := { get_prop_func := fun p => serverPropMapping.lookup p },
    client_side_handlers := [sampleHandler],
    server_side_get_filters := fun _ _ _ => none }

/-- The builder state produced by the successful first `parse_where` call in
the concrete C3 check. -/
def c3SecondState : QueryBuilderState :=
  { client_side_filter := some (fun resource =>
      filter_func_wrapper resource sampleFilterFunc (fun a => subscr a "user_id")
        [("value", PyVal.vInt 1)]),
    server_side_filters := none }

/-- Concrete check of C3: a successful `parse_where` on a fresh builder
followed by a second call with different arguments raises
`ParseQueryError`. -/
theorem C3_parse_where_twice_witness :
    parse_where sampleDeps c3SecondState "equal_to" ServerProperties.SERVER_NAME [] =
      .error (.parseQueryError "Error: Already set a query preset") :=
  C3_parse_where_twice sampleDeps freshBuilder "equal_to" ServerProperties.USER_ID
    [("value", PyVal.vInt 1)] c3SecondState (by rfl)
    "equal_to" ServerProperties.SERVER_NAME []
/-! ### `QueryParser` (lib/openstack_query/query_parser.py)

The parser is parameterized over the property enum type `P`, the record type
`R` and the property-value type `V` (Python compares values with the `<` /
`==` operators; a linear order models this).  The parser consults its prop
handler opaquely, so the handler is a bundle of functions. -/

/-- The prop handler a `QueryParser` is constructed with.  Modelled from the
spec for its shape: the PropHandler class file is not among the sources at
hand; per the spec's PropertyRegistry contract it offers `check_supported`
and property extraction (`get_prop`).  `propName` models the Python enum
member's `.name` and `valStr` models `str(value)` as used in group-name
formatting; `get_prop` is total here — the parser never catches extraction
errors, and the parser claims concern records whose extraction succeeds. -/
structure PropHandler (P R V : Type) where
  check_supported : P → Bool
  get_prop : R → P → V
  propName : P → String
  valStr : V → String

/-- The mutable state of a `QueryParser`: `_sort_by` (a dict from property to
descending flag), `_group_by` and `_group_mappings` (a dict from group name
to predicate). -/
structure QueryParserState (P R V : Type) where
  sort_by : List (P × Bool)
  group_by : Option P
  group_mappings : List (String × (R → Bool))

variable {R V : Type}

/-- The state of a freshly constructed `QueryParser`. -/
def freshParser : QueryParserState P R V :=
  { sort_by := [], group_by := none, group_mappings := [] }

/-- Message of the `QueryPropertyMappingError` raised by
`QueryParser._check_prop_valid`. -/
def parserPropErrMsg : String :=
  "Error: failed to get property mapping, property is not supported by prop_handler"

/-- The loop of `QueryParser.parse_sort_by`: validate each property and enter
it into the fresh `_sort_by` dict in declaration order. -/
def parseSortByAux [DecidableEq P] (h : PropHandler P R V) :
    List (P × Bool) → List (P × Bool) → Except QueryError (List (P × Bool))
  | acc, [] => .ok acc
  | acc, (p, ord) :: rest =>
    if h.check_supported p then parseSortByAux h (dictSet acc p ord) rest
    else .error (.propertyMappingError parserPropErrMsg)

/-- `QueryParser.parse_sort_by`: replaces `_sort_by` with a fresh dict built
from the given specs (so a later spec for the same property overwrites the
earlier one's flag in place). -/
def parse_sort_by [DecidableEq P] (h : PropHandler P R V) (st : QueryParserState P R V)
    (sort_by : List (P × Bool)) : Except QueryError (QueryParserState P R V) :=
  match parseSortByAux h [] sort_by with
  | .error e => .error e
  | .ok sb => .ok { st with sort_by := sb }

/-- The loop of `QueryParser.parse_group_by` over the given ranges: record one
membership predicate per named group and accumulate every listed value into
`all_prop_list` (a Python set; only membership in it is ever used, so a list
accumulator is an equivalent model). -/
def addRangeGroups [DecidableEq V] (h : PropHandler P R V) (group_by : P) :
    List (String × (R → Bool)) → List V → List (String × List V) →
    List (String × (R → Bool)) × List V
  | mappings, allProps, [] => (mappings, allProps)
  | mappings, allProps, (name, propList) :: rest =>
    addRangeGroups h group_by
      (dictSet mappings name (fun obj => decide (h.get_prop obj group_by ∈ propList)))
      (allProps ++ propList) rest

/-- `QueryParser.parse_group_by`: validate the property, record it, and — only
when a non-empty ranges dict is supplied (Python truthiness) — record the
per-range predicates, plus the "ungrouped results" predicate when
`include_missing` is set. -/
def parse_group_by [DecidableEq P] [DecidableEq V] (h : PropHandler P R V)
    (st : QueryParserState P R V) (group_by : P)
    (group_ranges : Option (List (String × List V))) (include_missing : Bool) :
    Except QueryError (QueryParserState P R V) :=
  if h.check_supported group_by then
    match group_ranges with
    | none => .ok { st with group_by := some group_by }
    | some ranges =>
      if ranges.isEmpty then .ok { st with group_by := some group_by }
      else
        match addRangeGroups h group_by st.group_mappings [] ranges with
        | (mappings, allPropList) =>
          .ok { st with
                group_by := some group_by,
                group_mappings :=
                  if include_missing then
                    dictSet mappings "ungrouped results"
                      (fun obj => decide (h.get_prop obj group_by ∉ allPropList))
                  else mappings }
  else .error (.propertyMappingError parserPropErrMsg)

/-- The per-pass comparison of `QueryParser._run_sort`: one `list.sort` call
with `key=get_prop(·, p)` and `reverse=desc`.  Python's sort is stable;
`reverse=True` sorts as if the key comparison were flipped while keeping
equal-key elements in their original order, which is exactly a stable sort
under the flipped total preorder. -/
def passLe [LinearOrder V] (h : PropHandler P R V) (p : P) (desc : Bool) (x y : R) : Bool :=
  if desc then decide (h.get_prop y p ≤ h.get_prop x p)
  else decide (h.get_prop x p ≤ h.get_prop y p)

/-- Stable insertion: an element goes before the first entry it compares
less-or-equal to, hence after every earlier-inserted equal entry. -/
def insertS (le : R → R → Bool) (x : R) : List R → List R
  | [] => [x]
  | y :: ys => if le x y then x :: y :: ys else y :: insertS le x ys

/-- Stable insertion sort, the extensional model of Python's stable
`list.sort` (any two stable sorts of the same total preorder agree). -/
def sortS (le : R → R → Bool) : List R → List R
  | [] => []
  | x :: xs => insertS le x (sortS le xs)

/-- `QueryParser._run_sort`: one stable sort pass per spec, iterating the
specs in reverse declaration order; each pass re-sorts the caller's list in
place. -/
def run_sort [DecidableEq P] [LinearOrder V] (h : PropHandler P R V)
    (sort_by_specs : List (P × Bool)) (obj_list : List R) : List R :=
  (sort_by_specs.reverse).foldl (fun acc s => sortS (passLe h s.1 s.2) acc) obj_list

/-- `QueryParser._build_unique_val_groups`: collect the distinct observed
values in first-seen order (an `OrderedDict` comprehension keyed on the
value), then build one equality predicate per value under the name
`"{prop.name} with value {val}"` (a dict keyed on that name). -/
def build_unique_val_groups [DecidableEq V] (h : PropHandler P R V)
    (obj_list : List R) (group_by_prop : P) : List (String × (R → Bool)) :=
  (((obj_list.foldl (fun acc obj => dictSet acc (h.get_prop obj group_by_prop) Unit.unit) []).map
      Prod.fst).foldl
    (fun acc val =>
      dictSet acc (h.propName group_by_prop ++ " with value " ++ h.valStr val)
        (fun obj => decide (h.get_prop obj group_by_prop = val))) [])

/-- `QueryParser._run_group_by`: a dict comprehension mapping each group name
to the records satisfying its predicate. -/
def run_group_by (obj_list : List R) (group_mappings : List (String × (R → Bool))) :
    List (String × List R) :=
  group_mappings.foldl (fun acc nm => dictSet acc nm.1 (obj_list.filter nm.2)) []

/-- The result of `runParser`: either the flat (possibly sorted) list or a
mapping from group name to record list, never both. -/
inductive ParseOutput (R : Type) where
  | flat (objs : List R)
  | grouped (groups : List (String × List R))

/-- `QueryParser.run_parser`.  The first component of the result models the
contents of the caller's list object after the call: `_run_sort` sorts that
list in place, so the caller observes the sorted order whenever a sort spec
is configured (grouping builds fresh lists and does not touch it).  Empty
input returns immediately.  When grouping is configured with no explicit
mappings, one group per distinct observed value is derived from the (already
sorted) list.  (The source also stores the auto-derived mappings back into
`self._group_mappings`; no claim observes a second run on the same instance,
so that state write-back is not modelled.) -/
def runParser [DecidableEq P] [DecidableEq V] [LinearOrder V] (h : PropHandler P R V)
    (st : QueryParserState P R V) (obj_list : List R) : List R × ParseOutput R :=
  if obj_list.isEmpty then (obj_list, .flat obj_list)
  else
    match st.group_by,
      (if st.sort_by.isEmpty then obj_list else run_sort h st.sort_by obj_list) with
    | none, sorted => (sorted, .flat sorted)
    | some gb, sorted =>
      (sorted, .grouped (run_group_by sorted
        (if st.group_mappings.isEmpty then build_unique_val_groups h sorted gb
         else st.group_mappings)))

/-! ### Specification-side descriptions for the parser claims -/

/-- The sort key vector of a record under a spec list, primary key first. -/
def keyVec (h : PropHandler P R V) (specs : List (P × Bool)) (x : R) : List V :=
  specs.map (fun s => h.get_prop x s.1)

/-- The lexicographic comparison described by the spec: the first-declared
spec is the primary key, each later spec breaks ties in declaration order,
each key ascending or descending per its flag. -/
def lexLe [LinearOrder V] (h : PropHandler P R V) :
    List (P × Bool) → R → R → Bool
  | [], _, _ => true
  | s :: rest, x, y =>
    if h.get_prop x s.1 = h.get_prop y s.1 then lexLe h rest x y
    else passLe h s.1 s.2 x y

/-- The multi-key sort the claim describes, written from the spec's words: a
single stable sort under the lexicographic comparison whose primary key is
the first-declared spec. -/
def claimedMultiKeySort [LinearOrder V] (h : PropHandler P R V)
    (specs : List (P × Bool)) (objs : List R) : List R :=
  sortS (fun x y => lexLe h specs x y) objs

/-- The distinct elements of a list in first-seen order. -/
def firstSeen [DecidableEq V] (vals : List V) : List V :=
  vals.foldl (fun acc v => if v ∈ acc then acc else acc ++ [v]) []

/-- The auto-derived grouping described by the spec: one group per distinct
observed value of the property, in first-seen order, each group holding
exactly the records with that value, under a name encoding the property name
and the value. -/
def autoGroupsSpec [DecidableEq V] (h : PropHandler P R V) (gb : P) (objs : List R) :
    List (String × List R) :=
  (firstSeen (objs.map (fun o => h.get_prop o gb))).map
    (fun v => (h.propName gb ++ " with value " ++ h.valStr v,
               objs.filter (fun o => decide (h.get_prop o gb = v))))

/-- The explicit-ranges grouping described by the spec: one group per range
holding exactly the records whose value lies in that range's list, plus an
"ungrouped results" group holding exactly the records whose value lies in
none of the ranges. -/
def rangeGroupsSpec [DecidableEq V] (h : PropHandler P R V) (gb : P)
    (ranges : List (String × List V)) (objs : List R) : List (String × List R) :=
  ranges.map (fun nv => (nv.1, objs.filter (fun o => decide (h.get_prop o gb ∈ nv.2))))
    ++ [("ungrouped results",
         objs.filter (fun o => decide (∀ nv ∈ ranges, h.get_prop o gb ∉ nv.2)))]

/-- The caller's list as left by `runParser`: unchanged without a sort spec,
sorted in place otherwise. -/
def sortedRecords [DecidableEq P] [LinearOrder V] (h : PropHandler P R V)
    (st : QueryParserState P R V) (l : List R) : List R :=
  if st.sort_by.isEmpty then l else run_sort h st.sort_by l
/-! ### Stable-sort lemmas -/

/-- Membership in a stable insertion. -/
theorem mem_insertS (le : R → R → Bool) (x a : R) :
    ∀ l : List R, a ∈ insertS le x l ↔ a = x ∨ a ∈ l
  | [] => by simp [insertS]
  | y :: ys => by
    cases hxy : le x y with
    | true => simp [insertS, hxy]
    | false =>
      simp only [insertS, hxy, Bool.false_eq_true, if_false, List.mem_cons, mem_insertS le x a ys]
      tauto

/-- A stable insertion permutes the cons. -/
theorem insertS_perm (le : R → R → Bool) (x : R) :
    ∀ l : List R, (insertS le x l).Perm (x :: l)
  | [] => List.Perm.refl _
  | y :: ys => by
    cases hxy : le x y with
    | true => simp [insertS, hxy]
    | false =>
      simp only [insertS, hxy, Bool.false_eq_true, if_false]
      exact ((insertS_perm le x ys).cons y).trans (List.Perm.swap x y ys)

/-- Stable insertion sort permutes its input. -/
theorem sortS_perm (le : R → R → Bool) : ∀ l : List R, (sortS le l).Perm l
  | [] => List.Perm.refl _
  | x :: xs => (insertS_perm le x (sortS le xs)).trans ((sortS_perm le xs).cons x)

/-- Stable insertion preserves sortedness (for a total, transitive
comparison). -/
theorem pairwise_insertS {le : R → R → Bool}
    (htot : ∀ a b, le a b = false → le b a = true)
    (htrans : ∀ a b c, le a b = true → le b c = true → le a c = true) (x : R) :
    ∀ l : List R, l.Pairwise (fun a b => le a b = true) →
      (insertS le x l).Pairwise (fun a b => le a b = true)
  | [], _ => List.pairwise_singleton _ x
  | y :: ys, hl => by
    rcases List.pairwise_cons.mp hl with ⟨hy, hys⟩
    cases hxy : le x y with
    | true =>
      simp only [insertS, hxy, if_true]
      refine List.pairwise_cons.mpr ⟨?_, hl⟩
      intro b hb
      rcases List.mem_cons.mp hb with rfl | hb'
      · exact hxy
      · exact htrans x y b hxy (hy b hb')
    | false =>
      simp only [insertS, hxy, Bool.false_eq_true, if_false]
      refine List.pairwise_cons.mpr ⟨?_, pairwise_insertS htot htrans x ys hys⟩
      intro b hb
      rcases (mem_insertS le x b ys).mp hb with rfl | hb'
      · exact htot _ _ hxy
      · exact hy b hb'

/-- Stable insertion sort sorts (for a total, transitive comparison). -/
theorem pairwise_sortS {le : R → R → Bool}
    (htot : ∀ a b, le a b = false → le b a = true)
    (htrans : ∀ a b c, le a b = true → le b c = true → le a c = true) :
    ∀ l : List R, (sortS le l).Pairwise (fun a b => le a b = true)
  | [] => List.Pairwise.nil
  | x :: xs => pairwise_insertS htot htrans x _ (pairwise_sortS htot htrans xs)

/-- Stability of one insertion, phrased on filters: a predicate that never
holds past the insertion point sees the inserted element in front. -/
theorem filter_insertS {le : R → R → Bool} (p : R → Bool) (x : R)
    (hcomp : p x = true → ∀ y, le x y = false → p y = false) :
    ∀ l : List R,
      (insertS le x l).filter p = if p x then x :: l.filter p else l.filter p
  | [] => by cases hpx : p x <;> simp [insertS, hpx]
  | y :: ys => by
    cases hxy : le x y with
    | true =>
      simp only [insertS, hxy, if_true]
      cases hpx : p x <;> simp [List.filter_cons, hpx]
    | false =>
      simp only [insertS, hxy, Bool.false_eq_true, if_false]
      rw [List.filter_cons, List.filter_cons, filter_insertS p x hcomp ys]
      cases hpx : p x with
      | true =>
        have hpy : p y = false := hcomp hpx y hxy
        simp [hpy]
      | false => cases hpy : p y <;> simp [hpy]

/-- Stability of stable insertion sort, phrased on filters: the records of
one comparison-equivalence class keep their original relative order. -/
theorem filter_sortS {le : R → R → Bool} (p : R → Bool)
    (hcompAll : ∀ x y, p x = true → p y = true → le x y = true) :
    ∀ l : List R, (sortS le l).filter p = l.filter p
  | [] => rfl
  | x :: xs => by
    have hcomp : p x = true → ∀ y, le x y = false → p y = false := by
      intro hpx y hxy
      cases hpy : p y with
      | false => rfl
      | true => rw [hcompAll x y hpx hpy] at hxy; cases hxy
    rw [show sortS le (x :: xs) = insertS le x (sortS le xs) from rfl,
      filter_insertS p x hcomp, filter_sortS p hcompAll xs, List.filter_cons]

/-- Totality of one pass comparison. -/
theorem passLe_total [LinearOrder V] (h : PropHandler P R V) (p : P) (d : Bool) (x y : R)
    (hf : passLe h p d x y = false) : passLe h p d y x = true := by
  cases d <;> simp [passLe] at hf ⊢ <;> exact hf.le

/-- Transitivity of one pass comparison. -/
theorem passLe_trans [LinearOrder V] (h : PropHandler P R V) (p : P) (d : Bool) (x y z : R)
    (h1 : passLe h p d x y = true) (h2 : passLe h p d y z = true) :
    passLe h p d x z = true := by
  cases d <;> simp [passLe] at h1 h2 ⊢
  · exact le_trans h1 h2
  · exact le_trans h2 h1

/-- A pass comparison accepts records with equal keys. -/
theorem passLe_of_eq [LinearOrder V] (h : PropHandler P R V) (p : P) (d : Bool) (x y : R)
    (heq : h.get_prop x p = h.get_prop y p) : passLe h p d x y = true := by
  cases d <;> simp [passLe, heq]

/-- Records accepted by a pass comparison in both directions have equal
keys. -/
theorem eq_of_passLe_both [LinearOrder V] (h : PropHandler P R V) (p : P) (d : Bool) (x y : R)
    (h1 : passLe h p d x y = true) (h2 : passLe h p d y x = true) :
    h.get_prop x p = h.get_prop y p := by
  cases d <;> simp [passLe] at h1 h2
  · exact le_antisymm h1 h2
  · exact le_antisymm h2 h1

/-- A pairwise property of a filtered list, transported to the whole list. -/
theorem pairwise_of_filter_bool {p : R → Bool} {Q : R → R → Prop} :
    ∀ {l : List R}, (l.filter p).Pairwise Q →
      l.Pairwise (fun x y => p x = true → p y = true → Q x y)
  | [], _ => List.Pairwise.nil
  | a :: l, hp => by
    rw [List.filter_cons] at hp
    by_cases hpa : p a = true
    · rw [if_pos hpa] at hp
      rcases List.pairwise_cons.mp hp with ⟨hhead, htail⟩
      refine List.pairwise_cons.mpr ⟨?_, pairwise_of_filter_bool htail⟩
      intro b hb _ hpb
      exact hhead b (List.mem_filter.mpr ⟨hb, hpb⟩)
    · rw [if_neg hpa] at hp
      refine List.pairwise_cons.mpr ⟨?_, pairwise_of_filter_bool hp⟩
      intro b _ hpa' _
      exact absurd hpa' hpa
/-! ### `_run_sort` characterization -/

/-- Sorting the empty list yields the empty list, whatever the specs. -/
theorem run_sort_nil [DecidableEq P] [LinearOrder V] (h : PropHandler P R V)
    (specs : List (P × Bool)) : run_sort h specs ([] : List R) = [] := by
  show List.foldl _ _ specs.reverse = _
  induction specs.reverse with
  | nil => rfl
  | cons s tl ih => exact ih

/-- Peeling the first-declared spec: its pass runs last. -/
theorem run_sort_cons [DecidableEq P] [LinearOrder V] (h : PropHandler P R V)
    (s : P × Bool) (rest : List (P × Bool)) (l : List R) :
    run_sort h (s :: rest) l = sortS (passLe h s.1 s.2) (run_sort h rest l) := by
  unfold run_sort
  rw [List.reverse_cons, List.foldl_append]
  rfl

/-- `_run_sort` permutes its input. -/
theorem run_sort_perm [DecidableEq P] [LinearOrder V] (h : PropHandler P R V)
    (specs : List (P × Bool)) (l : List R) : (run_sort h specs l).Perm l := by
  induction specs with
  | nil => exact List.Perm.refl l
  | cons s rest ih => rw [run_sort_cons]; exact (sortS_perm _ _).trans ih

/-- Stability of `_run_sort`: any predicate compatible with the sort keys
(two records satisfying it agree on every key) filters to the same
subsequence before and after sorting. -/
theorem run_sort_stability [DecidableEq P] [LinearOrder V] (h : PropHandler P R V)
    (specs : List (P × Bool)) (l : List R) (p : R → Bool)
    (hcomp : ∀ x y, p x = true → p y = true → ∀ s ∈ specs, h.get_prop x s.1 = h.get_prop y s.1) :
    (run_sort h specs l).filter p = l.filter p := by
  induction specs with
  | nil => rfl
  | cons s rest ih =>
    rw [run_sort_cons,
      filter_sortS p (fun x y hx hy =>
        passLe_of_eq h s.1 s.2 x y (hcomp x y hx hy s (List.mem_cons_self s rest)))]
    exact ih (fun x y hx hy s' hs' => hcomp x y hx hy s' (List.mem_cons_of_mem s hs'))

/-- `_run_sort` sorts by the lexicographic comparison whose primary key is
the first-declared spec: the later passes' order survives exactly on the
earlier keys' ties, by stability. -/
theorem run_sort_sorted [DecidableEq P] [LinearOrder V] (h : PropHandler P R V)
    (specs : List (P × Bool)) (l : List R) :
    (run_sort h specs l).Pairwise (fun a b => lexLe h specs a b = true) := by
  induction specs with
  | nil => exact List.pairwise_iff_getElem.mpr (fun i j hi hj hij => rfl)
  | cons s rest ih =>
    rw [run_sort_cons]
    have htot := passLe_total h s.1 s.2
    have htrans := passLe_trans h s.1 s.2
    have hsorted := @pairwise_sortS R (passLe h s.1 s.2)
      (fun a b => htot a b) (fun a b c => htrans a b c) (run_sort h rest l)
    rw [List.pairwise_iff_getElem]
    intro i j hi hj hij
    have hle := List.pairwise_iff_getElem.mp hsorted i j hi hj hij
    by_cases heq :
        h.get_prop ((sortS (passLe h s.1 s.2) (run_sort h rest l))[i]) s.1 =
          h.get_prop ((sortS (passLe h s.1 s.2) (run_sort h rest l))[j]) s.1
    · have hfil := @filter_sortS R (passLe h s.1 s.2)
        (fun x => decide (h.get_prop x s.1 =
          h.get_prop ((sortS (passLe h s.1 s.2) (run_sort h rest l))[i]) s.1))
        (fun x y hx hy => by
          rw [decide_eq_true_eq] at hx hy
          exact passLe_of_eq h s.1 s.2 x y (hx.trans hy.symm))
        (run_sort h rest l)
      have hclass := (ih.filter
        (fun x => decide (h.get_prop x s.1 =
          h.get_prop ((sortS (passLe h s.1 s.2) (run_sort h rest l))[i]) s.1)))
      rw [← hfil] at hclass
      have hout := pairwise_of_filter_bool hclass
      have hres := List.pairwise_iff_getElem.mp hout i j hi hj hij
        (by rw [decide_eq_true_eq]) (by rw [decide_eq_true_eq]; exact heq.symm)
      show (if _ = _ then _ else _) = true
      rw [if_pos heq]
      exact hres
    · show (if _ = _ then _ else _) = true
      rw [if_neg heq]
      exact hle
/-! ### Python-dict lemmas -/

/-- The keys after one assignment: unchanged when the key exists, appended
otherwise. -/
theorem dictSet_keys {K W : Type} [DecidableEq K] (k : K) (v : W) :
    ∀ d : List (K × W), (dictSet d k v).map Prod.fst =
      if k ∈ d.map Prod.fst then d.map Prod.fst else d.map Prod.fst ++ [k]
  | [] => by simp [dictSet]
  | (k', v') :: rest => by
    by_cases hk : k = k'
    · subst hk
      simp [dictSet]
    · simp only [dictSet, if_neg hk, List.map_cons, dictSet_keys k v rest]
      by_cases hmem : k ∈ rest.map Prod.fst <;>
        simp [hmem, List.mem_cons, hk]

/-- Assigning a fresh key appends the pair. -/
theorem dictSet_append {K W : Type} [DecidableEq K] (k : K) (v : W) :
    ∀ d : List (K × W), k ∉ d.map Prod.fst → dictSet d k v = d ++ [(k, v)]
  | [], _ => rfl
  | (k', v') :: rest, hk => by
    have hne : k ≠ k' := fun hcontr => hk (by simp [hcontr])
    simp only [dictSet, if_neg hne, List.cons_append, List.cons.injEq, true_and]
    exact dictSet_append k v rest (fun hcontr => hk (by simp [hcontr]))

/-- Building a dict from key-distinct pairs over a key-disjoint accumulator
appends them in order. -/
theorem foldl_dictSet_pairs {K W : Type} [DecidableEq K] :
    ∀ (pairs acc : List (K × W)),
      (∀ k ∈ pairs.map Prod.fst, k ∉ acc.map Prod.fst) →
      (pairs.map Prod.fst).Nodup →
      pairs.foldl (fun a kv => dictSet a kv.1 kv.2) acc = acc ++ pairs
  | [], acc, _, _ => by simp
  | (k, v) :: rest, acc, hdisj, hnd => by
    have hk : k ∉ acc.map Prod.fst := hdisj k (by simp)
    have hstep : dictSet acc k v = acc ++ [(k, v)] := dictSet_append k v acc hk
    have hnd' : (k :: rest.map Prod.fst).Nodup := by simpa using hnd
    simp only [List.foldl_cons, hstep]
    rw [foldl_dictSet_pairs rest (acc ++ [(k, v)]) ?hdisj2 hnd'.of_cons]
    · simp
    case hdisj2 =>
      intro k' hk'
      simp only [List.map_append, List.mem_append, List.map_cons]
      rintro (h1 | h2)
      · exact hdisj k' (by simp [hk']) h1
      · have hkk : k' = k := by simpa using h2
        subst hkk
        exact (List.nodup_cons.mp hnd').1 hk'

/-- Building a dict from key-distinct pairs yields exactly those pairs. -/
theorem foldl_dictSet_nodup {K W : Type} [DecidableEq K] (pairs : List (K × W))
    (hnd : (pairs.map Prod.fst).Nodup) :
    pairs.foldl (fun a kv => dictSet a kv.1 kv.2) [] = pairs := by
  simpa using foldl_dictSet_pairs pairs [] (by simp) hnd

/-- `parse_sort_by`'s loop folds the specs into the fresh dict. -/
theorem parseSortByAux_ok [DecidableEq P] (h : PropHandler P R V) :
    ∀ (specs acc sb : List (P × Bool)), parseSortByAux h acc specs = .ok sb →
      sb = specs.foldl (fun a pr => dictSet a pr.1 pr.2) acc
  | [], acc, sb, hok => by
    simpa using (Except.ok.inj hok).symm
  | (p, ord) :: rest, acc, sb, hok => by
    unfold parseSortByAux at hok
    by_cases hsup : h.check_supported p = true
    · rw [if_pos hsup] at hok
      simpa using parseSortByAux_ok h rest (dictSet acc p ord) sb hok
    · rw [if_neg hsup] at hok
      exact Except.noConfusion hok

/-- Every property in a spec list accepted by `parse_sort_by`'s loop is
supported. -/
theorem parse_sort_by_ok [DecidableEq P] (h : PropHandler P R V)
    (st st' : QueryParserState P R V) (specs : List (P × Bool))
    (hnd : (specs.map Prod.fst).Nodup)
    (hok : parse_sort_by h st specs = .ok st') :
    st' = { st with sort_by := specs } := by
  unfold parse_sort_by at hok
  cases haux : parseSortByAux h [] specs with
  | error e => rw [haux] at hok; exact Except.noConfusion hok
  | ok sb =>
    rw [haux] at hok
    have hsb := parseSortByAux_ok h specs [] sb haux
    rw [foldl_dictSet_nodup specs hnd] at hsb
    rw [← Except.ok.inj hok, hsb]

/-- A dict comprehension over key-distinct entries maps them in order. -/
theorem run_group_by_nodup (objs : List R) (mappings : List (String × (R → Bool)))
    (hnd : (mappings.map Prod.fst).Nodup) :
    run_group_by objs mappings = mappings.map (fun nf => (nf.1, objs.filter nf.2)) := by
  unfold run_group_by
  rw [show mappings.foldl (fun acc nm => dictSet acc nm.1 (objs.filter nm.2)) []
      = (mappings.map (fun nf => (nf.1, objs.filter nf.2))).foldl
          (fun a kv => dictSet a kv.1 kv.2) []
    from (List.foldl_map (fun nf : String × (R → Bool) => (nf.1, objs.filter nf.2))
      (fun a kv => dictSet a kv.1 kv.2) mappings []).symm]
  exact foldl_dictSet_nodup _ (by simpa [List.map_map, Function.comp] using hnd)
/-- Equal key vectors agree on every individual sort key. -/
theorem keyVec_eq_component [LinearOrder V] (h : PropHandler P R V) (x y : R) :
    ∀ specs : List (P × Bool), keyVec h specs x = keyVec h specs y →
      ∀ s ∈ specs, h.get_prop x s.1 = h.get_prop y s.1
  | [], _, s, hs => absurd hs (List.not_mem_nil s)
  | t :: rest, heq, s, hs => by
    simp only [keyVec, List.map_cons, List.cons.injEq] at heq
    rcases List.mem_cons.mp hs with rfl | hs'
    · exact heq.1
    · exact keyVec_eq_component h x y rest (by simpa [keyVec] using heq.2) s hs'

/-! ### Claim C2 -/

/-- C2 (amended, for spec sequences whose properties are pairwise distinct):
after `parse_sort_by`, `runParser` returns the records stably sorted with
the first-declared spec as primary key and each later spec breaking ties in
declaration order, each key ascending or descending per its flag — i.e. a
permutation of the input, sorted under the lexicographic comparison, with
key-equal records in input order; with zero specs the input order is
unchanged.  (As stated, over arbitrary spec sequences, the claim is false:
`parse_sort_by` stores the specs in a dict, so a repeated property collapses
to a single entry with the last flag — see `C2_sort_counterexample`.) -/
theorem C2_sort_stable_multikey [DecidableEq P] [DecidableEq V] [LinearOrder V]
    (h : PropHandler P R V) (st st' : QueryParserState P R V)
    (specs : List (P × Bool)) (l : List R)
    (hnd : (specs.map Prod.fst).Nodup)
    (hok : parse_sort_by h st specs = .ok st')
    (hgb : st.group_by = none) :
    runParser h st' l = (run_sort h specs l, .flat (run_sort h specs l))
    ∧ (run_sort h specs l).Perm l
    ∧ (run_sort h specs l).Pairwise (fun a b => lexLe h specs a b = true)
    ∧ (∀ k : List V, (run_sort h specs l).filter (fun x => decide (keyVec h specs x = k))
        = l.filter (fun x => decide (keyVec h specs x = k)))
    ∧ (specs = [] → runParser h st' l = (l, .flat l)) := by
  have hst' : st' = { st with sort_by := specs } := parse_sort_by_ok h st st' specs hnd hok
  have hsb : st'.sort_by = specs := by rw [hst']
  have hgb' : st'.group_by = none := by rw [hst']; exact hgb
  have hmain : runParser h st' l = (run_sort h specs l, .flat (run_sort h specs l)) := by
    unfold runParser
    rw [hsb, hgb']
    cases hl : l.isEmpty with
    | true =>
      rw [if_pos rfl]
      have hnil : l = [] := List.isEmpty_eq_true.mp hl
      subst hnil
      rw [run_sort_nil]
    | false =>
      rw [if_neg Bool.false_ne_true]
      cases specs with
      | nil => rfl
      | cons s rest => rfl
  refine ⟨hmain, run_sort_perm h specs l, run_sort_sorted h specs l, ?_, ?_⟩
  · intro k
    refine run_sort_stability h specs l _ ?_
    intro x y hx hy s hs
    rw [decide_eq_true_eq] at hx hy
    exact keyVec_eq_component h x y specs (hx.trans hy.symm) s hs
  · intro hspec
    subst hspec
    exact hmain

/-- A one-property handler over natural-number records (the record is its own
property value). -/
def natUnitHandler : PropHandler Unit Nat Nat :=
  { check_supported := fun _ => true,
    get_prop := fun r _ => r,
    propName := fun _ => "prop_x",
    valStr := fun n => toString n }

/-- The parser state `parse_sort_by` produces for the duplicate-property spec
sequence `[((), False), ((), True)]`: the dict collapses the duplicate,
keeping the last flag. -/
def c2DupState : QueryParserState Unit Nat Nat :=
  { sort_by := [((), true)], group_by := none, group_mappings := [] }

/-- C2 counterexample: for the spec sequence `[(A, False), (A, True)]` on
records `[0, 1]`, the claim's described semantics (first-declared spec
primary, later specs breaking ties; equivalently stable passes over the
declared sequence in reverse order) yields `[0, 1]`, but the code collapses
the duplicate property in its `_sort_by` dict and runParser returns
`[1, 0]`. -/
theorem C2_sort_counterexample :
    parse_sort_by natUnitHandler freshParser [((), false), ((), true)] = .ok c2DupState
    ∧ (runParser natUnitHandler c2DupState [0, 1]).2 = .flat [1, 0]
    ∧ claimedMultiKeySort natUnitHandler [((), false), ((), true)] [0, 1] = [0, 1]
    ∧ run_sort natUnitHandler [((), false), ((), true)] [0, 1] = [0, 1]
    ∧ ParseOutput.flat [1, 0] ≠ ParseOutput.flat ([0, 1] : List Nat) := by
  refine ⟨rfl, rfl, rfl, rfl, ?_⟩
  intro hcontr
  exact absurd (ParseOutput.flat.inj hcontr) (by decide)

/-- The two-property enumeration of the concrete C2 check. -/
inductive C2Prop where
  | A
  | B
deriving DecidableEq

/-- A two-property handler over pair records. -/
def c2Handler : PropHandler C2Prop (Nat × Nat) Nat :=
  { check_supported := fun _ => true,
    get_prop := fun r p => match p with | .A => r.1 | .B => r.2,
    propName := fun p => match p with | .A => "A" | .B => "B",
    valStr := fun n => toString n }

/-- The parser state produced by `parse_sort_by [(A, False), (B, True)]`. -/
def c2SortedState : QueryParserState C2Prop (Nat × Nat) Nat :=
  { sort_by := [(C2Prop.A, false), (C2Prop.B, true)],
    group_by := none, group_mappings := [] }

/-- Concrete check of C2 (amended): specs `[(A, False), (B, True)]` sort
ascending by A with ties broken descending by B, stably. -/
theorem C2_sort_stable_multikey_witness :
    ([((C2Prop.A, false)), ((C2Prop.B, true))].map Prod.fst).Nodup
    ∧ parse_sort_by c2Handler freshParser [(C2Prop.A, false), (C2Prop.B, true)] =
        .ok c2SortedState
    ∧ runParser c2Handler c2SortedState [(1, 1), (0, 5), (1, 3), (0, 2)]
        = ([(0, 5), (0, 2), (1, 3), (1, 1)], .flat [(0, 5), (0, 2), (1, 3), (1, 1)])
    ∧ (run_sort c2Handler [(C2Prop.A, false), (C2Prop.B, true)]
        [(1, 1), (0, 5), (1, 3), (0, 2)]).Perm [(1, 1), (0, 5), (1, 3), (0, 2)] := by
  have hmain := C2_sort_stable_multikey c2Handler freshParser c2SortedState
    [(C2Prop.A, false), (C2Prop.B, true)] [(1, 1), (0, 5), (1, 3), (0, 2)]
    (by decide) (by rfl) rfl
  refine ⟨by decide, by rfl, ?_, hmain.2.1⟩
  rw [hmain.1]
  rfl

/-! ### Claim C9 -/

/-- C9 (amended): `runParser` leaves the caller's list unchanged when no
sort spec is configured; when a sort spec is configured the caller's list is
sorted in place, so its contents are preserved only up to permutation.  (As
stated the claim is false: `_run_sort` calls `list.sort`, mutating the
caller's list — see `C9_mutation_counterexample`.) -/
theorem C9_run_parser_frame [DecidableEq P] [DecidableEq V] [LinearOrder V]
    (h : PropHandler P R V) (st : QueryParserState P R V) (l : List R) :
    (st.sort_by = [] → (runParser h st l).1 = l)
    ∧ (runParser h st l).1.Perm l := by
  constructor
  · intro hsb
    unfold runParser
    cases hl : l.isEmpty with
    | true => rw [if_pos rfl]
    | false =>
      rw [if_neg Bool.false_ne_true, hsb]
      cases hgb : st.group_by with
      | none => rfl
      | some gb => rfl
  · unfold runParser
    cases hl : l.isEmpty with
    | true => rw [if_pos rfl]
    | false =>
      rw [if_neg Bool.false_ne_true]
      have hperm : (if st.sort_by.isEmpty then l else run_sort h st.sort_by l).Perm l := by
        cases hse : st.sort_by.isEmpty with
        | true => rw [if_pos rfl]
        | false => rw [if_neg Bool.false_ne_true]; exact run_sort_perm h st.sort_by l
      cases hgb : st.group_by with
      | none => exact hperm
      | some gb => exact hperm

/-- C9 counterexample: a configured descending sort leaves the caller's list
`[0, 1]` holding `[1, 0]` after `runParser` — the input list is mutated. -/
theorem C9_mutation_counterexample :
    parse_sort_by natUnitHandler freshParser [((), true)] = .ok c2DupState
    ∧ (runParser natUnitHandler c2DupState [0, 1]).1 = [1, 0]
    ∧ (runParser natUnitHandler c2DupState [0, 1]).1 ≠ [0, 1] := by
  refine ⟨rfl, rfl, ?_⟩
  intro hcontr
  rw [show (runParser natUnitHandler c2DupState [0, 1]).1 = [1, 0] from rfl] at hcontr
  exact absurd hcontr (by decide)

/-- Concrete check of C9 (amended): without a sort spec the caller's list is
untouched; with one it keeps its contents up to permutation. -/
theorem C9_run_parser_frame_witness :
    (freshParser : QueryParserState Unit Nat Nat).sort_by = []
    ∧ (runParser natUnitHandler freshParser [5, 3]).1 = [5, 3]
    ∧ (runParser natUnitHandler c2DupState [0, 1]).1.Perm [0, 1] := by
  refine ⟨rfl, ?_, ?_⟩
  · exact (C9_run_parser_frame natUnitHandler freshParser [5, 3]).1 rfl
  · exact (C9_run_parser_frame natUnitHandler c2DupState [0, 1]).2
/-! ### Claim C6 -/

/-- A dict is never empty after an assignment. -/
theorem dictSet_ne_nil {K W : Type} [DecidableEq K] (d : List (K × W)) (k : K) (v : W) :
    (dictSet d k v).isEmpty = false := by
  cases d with
  | nil => rfl
  | cons kv rest =>
    obtain ⟨k', v'⟩ := kv
    by_cases hk : k = k' <;> simp [dictSet, hk]

/-- Closed form of `parse_group_by`'s ranges loop: the per-range predicates
are entered into the dict in range order, and `all_prop_list` accumulates
every listed value. -/
theorem addRangeGroups_spec [DecidableEq V] (h : PropHandler P R V) (gb : P) :
    ∀ (ranges : List (String × List V)) (mappings : List (String × (R → Bool)))
      (allProps : List V),
      addRangeGroups h gb mappings allProps ranges =
        (ranges.foldl (fun acc nv => dictSet acc nv.1
           (fun obj => decide (h.get_prop obj gb ∈ nv.2))) mappings,
         allProps ++ (ranges.map Prod.snd).flatten)
  | [], mappings, allProps => by simp [addRangeGroups]
  | (name, propList) :: rest, mappings, allProps => by
    rw [show addRangeGroups h gb mappings allProps ((name, propList) :: rest)
        = addRangeGroups h gb
            (dictSet mappings name (fun obj => decide (h.get_prop obj gb ∈ propList)))
            (allProps ++ propList) rest from rfl]
    rw [addRangeGroups_spec h gb rest _ _]
    simp [List.append_assoc]

/-- The parser state `parse_group_by` builds from explicit ranges with
`include_missing=True` on a fresh parser. -/
def rangeGroupState [DecidableEq V] (h : PropHandler P R V) (gb : P)
    (ranges : List (String × List V)) : QueryParserState P R V :=
  { sort_by := [], group_by := some gb,
    group_mappings := dictSet
      (ranges.foldl (fun acc nv => dictSet acc nv.1
        (fun obj => decide (h.get_prop obj gb ∈ nv.2))) [])
      "ungrouped results"
      (fun obj => decide (h.get_prop obj gb ∉
        ([] ++ (ranges.map Prod.snd).flatten : List V))) }

/-- Reduction of `runParser` in the grouped, explicit-mappings case. -/
theorem run_parser_grouped [DecidableEq P] [DecidableEq V] [LinearOrder V]
    (h : PropHandler P R V) (st : QueryParserState P R V) (gb : P) (l : List R)
    (hl : l.isEmpty = false) (hgb : st.group_by = some gb)
    (hmne : st.group_mappings.isEmpty = false) :
    runParser h st l = (sortedRecords h st l,
      .grouped (run_group_by (sortedRecords h st l) st.group_mappings)) := by
  unfold runParser
  rw [hl, if_neg Bool.false_ne_true, hgb, hmne]
  rfl

/-- C6: with explicit ranges and `include_missing`, `runParser` yields one
named group per range holding exactly the records whose value is in that
range's list (a record in several ranges appears in every matching group),
plus an "ungrouped results" group holding exactly the records whose value is
in none of the ranges. -/
theorem C6_range_groups [DecidableEq P] [DecidableEq V] [LinearOrder V]
    (h : PropHandler P R V) (gb : P) (ranges : List (String × List V))
    (st : QueryParserState P R V)
    (hsup : h.check_supported gb = true)
    (hne : ranges.isEmpty = false)
    (hnodup : (ranges.map Prod.fst).Nodup)
    (hnoclash : "ungrouped results" ∉ ranges.map Prod.fst)
    (hok : parse_group_by h freshParser gb (some ranges) true = .ok st)
    (l : List R) (hl : l.isEmpty = false) :
    runParser h st l = (l, .grouped (rangeGroupsSpec h gb ranges l)) := by
  have hcomp : parse_group_by h freshParser gb (some ranges) true =
      .ok (rangeGroupState h gb ranges) := by
    cases ranges with
    | nil => exact absurd hne (by simp)
    | cons r rest =>
      simp only [parse_group_by, freshParser, hsup, if_true, List.isEmpty_cons,
        Bool.false_eq_true, if_false]
      have hsp := addRangeGroups_spec h gb (r :: rest) [] []
      have h1 : (addRangeGroups h gb [] [] (r :: rest)).1
          = (r :: rest).foldl (fun acc nv => dictSet acc nv.1
              (fun obj => decide (h.get_prop obj gb ∈ nv.2))) [] := by rw [hsp]
      have h2 : (addRangeGroups h gb [] [] (r :: rest)).2
          = [] ++ ((r :: rest).map Prod.snd).flatten := by rw [hsp]
      rw [h1]
      simp only [h2]
      rfl
  have hst : st = rangeGroupState h gb ranges :=
    (Except.ok.inj (hcomp.symm.trans hok)).symm
  subst hst
  have hfold : ranges.foldl (fun acc nv => dictSet acc nv.1
        (fun obj => decide (h.get_prop obj gb ∈ nv.2))) []
      = ranges.map (fun nv => (nv.1,
          fun obj => decide (h.get_prop obj gb ∈ nv.2))) := by
    rw [show ranges.foldl (fun acc nv => dictSet acc nv.1
          (fun obj => decide (h.get_prop obj gb ∈ nv.2))) []
        = (ranges.map (fun nv => (nv.1,
            fun obj => decide (h.get_prop obj gb ∈ nv.2)))).foldl
            (fun a kv => dictSet a kv.1 kv.2) []
      from (List.foldl_map
        (fun nv : String × List V => (nv.1, fun obj => decide (h.get_prop obj gb ∈ nv.2)))
        (fun a kv => dictSet a kv.1 kv.2) ranges []).symm]
    exact foldl_dictSet_nodup _ (by simpa [List.map_map, Function.comp] using hnodup)
  have hmapeq : (rangeGroupState h gb ranges).group_mappings
      = ranges.map (fun nv => (nv.1, fun obj => decide (h.get_prop obj gb ∈ nv.2)))
        ++ [("ungrouped results",
             fun obj => decide (h.get_prop obj gb ∉
               ([] ++ (ranges.map Prod.snd).flatten : List V)))] := by
    show dictSet _ _ _ = _
    rw [hfold]
    exact dictSet_append _ _ _
      (by simpa [List.map_map, Function.comp] using hnoclash)
  have hrg : run_group_by l ((rangeGroupState h gb ranges).group_mappings)
      = rangeGroupsSpec h gb ranges l := by
    rw [hmapeq]
    rw [run_group_by_nodup l _ ?hnames]
    case hnames =>
      rw [List.map_append, List.map_map]
      refine List.Nodup.append (by simpa [List.map_map, Function.comp] using hnodup)
        (List.nodup_singleton _) ?_
      intro a ha hmem
      simp only [List.map_cons, List.map_nil, List.mem_singleton] at hmem
      subst hmem
      exact hnoclash (by simpa [List.map_map, Function.comp] using ha)
    unfold rangeGroupsSpec
    rw [List.map_append, List.map_map]
    congr 1
    simp only [List.map_cons, List.map_nil, List.cons.injEq, and_true, Prod.mk.injEq, true_and]
    apply List.filter_congr
    intro a _
    rw [decide_eq_decide]
    simp only [List.nil_append, List.mem_flatten, List.mem_map, not_exists, not_and]
    constructor
    · intro hno nv hnv hmem
      exact hno nv.2 ⟨nv, hnv, rfl⟩ hmem
    · rintro hall ws ⟨nv, hnv, rfl⟩ hmem
      exact hall nv hnv hmem
  rw [run_parser_grouped h (rangeGroupState h gb ranges) gb l hl rfl (dictSet_ne_nil _ _ _)]
  rw [show sortedRecords h (rangeGroupState h gb ranges) l = l from rfl, hrg]

/-- The parser state left by `parse_group_by` with the concrete low/high
ranges and `include_missing=True` in the C6 check. -/
def c6State : QueryParserState Unit Nat Nat :=
  { sort_by := [], group_by := some (),
    group_mappings :=
      [ ("low", fun obj => decide (natUnitHandler.get_prop obj () ∈ [1, 2])),
        ("high", fun obj => decide (natUnitHandler.get_prop obj () ∈ [3, 4])),
        ("ungrouped results",
          fun obj => decide (natUnitHandler.get_prop obj () ∉ ([1, 2, 3, 4] : List Nat))) ] }

/-- Concrete check of C6: ranges low=[1,2], high=[3,4] with include_missing
on records with values [1,2,3,4,5] yield the three groups of the claim. -/
theorem C6_range_groups_witness :
    parse_group_by natUnitHandler freshParser () (some [("low", [1, 2]), ("high", [3, 4])]) true
      = .ok c6State
    ∧ runParser natUnitHandler c6State [1, 2, 3, 4, 5]
      = ([1, 2, 3, 4, 5],
         .grouped [("low", [1, 2]), ("high", [3, 4]), ("ungrouped results", [5])]) := by
  refine ⟨by rfl, ?_⟩
  have hmain := C6_range_groups natUnitHandler () [("low", [1, 2]), ("high", [3, 4])]
    c6State rfl rfl (by decide) (by decide) (by rfl) [1, 2, 3, 4, 5] rfl
  rw [hmain]
  rfl
/-! ### Claim C7 -/

/-- The keys of the `OrderedDict` value comprehension are the values in
first-seen order. -/
theorem dict_comprehension_keys [DecidableEq V] :
    ∀ (vals : List V) (acc : List (V × Unit)),
      ((vals.foldl (fun a v => dictSet a v Unit.unit) acc).map Prod.fst)
        = vals.foldl (fun ks v => if v ∈ ks then ks else ks ++ [v]) (acc.map Prod.fst)
  | [], _ => rfl
  | v :: rest, acc => by
    rw [List.foldl_cons, List.foldl_cons,
      dict_comprehension_keys rest (dictSet acc v Unit.unit), dictSet_keys v Unit.unit acc]

/-- The first-seen fold preserves key distinctness. -/
theorem firstSeen_step_nodup [DecidableEq V] :
    ∀ (vals acc : List V), acc.Nodup →
      (vals.foldl (fun ks v => if v ∈ ks then ks else ks ++ [v]) acc).Nodup
  | [], _, hacc => hacc
  | v :: rest, acc, hacc => by
    rw [List.foldl_cons]
    by_cases hv : v ∈ acc
    · rw [if_pos hv]
      exact firstSeen_step_nodup rest acc hacc
    · rw [if_neg hv]
      refine firstSeen_step_nodup rest _ ?_
      exact hacc.append (List.nodup_singleton v)
        (fun a ha hmem => hv (List.mem_singleton.mp hmem ▸ ha))

/-- The distinct observed values are pairwise distinct. -/
theorem firstSeen_nodup [DecidableEq V] (vals : List V) : (firstSeen vals).Nodup :=
  firstSeen_step_nodup vals [] List.nodup_nil

/-- Every element of the first-seen fold stems from the accumulator or the
input. -/
theorem firstSeen_step_mem [DecidableEq V] :
    ∀ (vals acc : List V) (x : V),
      x ∈ vals.foldl (fun ks v => if v ∈ ks then ks else ks ++ [v]) acc →
      x ∈ acc ∨ x ∈ vals
  | [], _, _, hx => Or.inl hx
  | v :: rest, acc, x, hx => by
    rw [List.foldl_cons] at hx
    rcases firstSeen_step_mem rest _ x hx with hin | hin
    · by_cases hv : v ∈ acc
      · rw [if_pos hv] at hin
        exact Or.inl hin
      · rw [if_neg hv] at hin
        rcases List.mem_append.mp hin with h1 | h1
        · exact Or.inl h1
        · exact Or.inr (by simp [List.mem_singleton.mp h1])
    · exact Or.inr (List.mem_cons_of_mem v hin)

/-- The distinct observed values all occur in the input. -/
theorem firstSeen_subset [DecidableEq V] (vals : List V) (x : V)
    (hx : x ∈ firstSeen vals) : x ∈ vals := by
  rcases firstSeen_step_mem vals [] x hx with hemp | hmem
  · cases hemp
  · exact hmem

/-- String concatenation cancels on the left. -/
theorem string_append_cancel_left (a : String) {b c : String} (h : a ++ b = a ++ c) :
    b = c := by
  have hd : a.data ++ b.data = a.data ++ c.data := by
    rw [← String.data_append, ← String.data_append, h]
  exact congrArg String.mk (List.append_cancel_left hd)

/-- No auto-derived group name collides with the "ungrouped results" name. -/
theorem with_value_ne_ungrouped (a b : String) :
    a ++ " with value " ++ b ≠ "ungrouped results" := by
  intro hcontr
  have hdata : a.data ++ " with value ".data ++ b.data = "ungrouped results".data := by
    rw [← String.data_append, ← String.data_append, hcontr]
  have hm12 : (" with value ".data).length = 12 := rfl
  have ht17 : ("ungrouped results".data).length = 17 := rfl
  have hlen : a.data.length + 12 + b.data.length = 17 := by
    have hcongr := congrArg List.length hdata
    rw [List.length_append, List.length_append, hm12, ht17] at hcongr
    exact hcongr
  have hle5 : a.data.length ≤ 5 := by omega
  have hdrop : " with value ".data ++ b.data = "ungrouped results".data.drop a.data.length := by
    rw [← hdata, List.append_assoc, List.drop_left]
  have htake : " with value ".data = ("ungrouped results".data.drop a.data.length).take 12 := by
    rw [← hdrop, List.take_left' hm12]
  set n := a.data.length with hn
  interval_cases n <;> exact absurd htake (by decide)

/-- The caller's list after `runParser` is a permutation of the input. -/
theorem sortedRecords_perm [DecidableEq P] [LinearOrder V] (h : PropHandler P R V)
    (st : QueryParserState P R V) (l : List R) : (sortedRecords h st l).Perm l := by
  unfold sortedRecords
  cases hse : st.sort_by.isEmpty with
  | true => rw [if_pos rfl]
  | false => rw [if_neg Bool.false_ne_true]; exact run_sort_perm h st.sort_by l

/-- The grouped output of the auto-derived value groups is exactly the
spec-side description, when distinct values render distinctly. -/
theorem run_group_by_build_unique [DecidableEq V] (h : PropHandler P R V) (gb : P)
    (objs : List R)
    (hinj : ∀ x ∈ objs, ∀ y ∈ objs,
      h.valStr (h.get_prop x gb) = h.valStr (h.get_prop y gb) →
        h.get_prop x gb = h.get_prop y gb) :
    run_group_by objs (build_unique_val_groups h objs gb) = autoGroupsSpec h gb objs := by
  have hkeys : ((objs.foldl (fun acc obj => dictSet acc (h.get_prop obj gb) Unit.unit) []).map
        Prod.fst)
      = firstSeen (objs.map (fun o => h.get_prop o gb)) := by
    rw [show objs.foldl (fun acc obj => dictSet acc (h.get_prop obj gb) Unit.unit) []
        = (objs.map (fun o => h.get_prop o gb)).foldl (fun a v => dictSet a v Unit.unit) []
      from (List.foldl_map (fun o => h.get_prop o gb)
        (fun a v => dictSet a v Unit.unit) objs []).symm]
    rw [dict_comprehension_keys (objs.map (fun o => h.get_prop o gb)) []]
    rfl
  have hnamesnd : (((firstSeen (objs.map (fun o => h.get_prop o gb))).map
      (fun v => (h.propName gb ++ " with value " ++ h.valStr v,
        fun obj => decide (h.get_prop obj gb = v)))).map Prod.fst).Nodup := by
    rw [List.map_map]
    refine List.Nodup.map_on ?_ (firstSeen_nodup _)
    intro x hx y hy hxy
    obtain ⟨o1, ho1, rfl⟩ := List.mem_map.mp (firstSeen_subset _ x hx)
    obtain ⟨o2, ho2, rfl⟩ := List.mem_map.mp (firstSeen_subset _ y hy)
    have hxy' : h.propName gb ++ " with value " ++ h.valStr (h.get_prop o1 gb)
        = h.propName gb ++ " with value " ++ h.valStr (h.get_prop o2 gb) := hxy
    exact hinj o1 ho1 o2 ho2
      (string_append_cancel_left (h.propName gb ++ " with value ") hxy')
  have hbuild : build_unique_val_groups h objs gb
      = (firstSeen (objs.map (fun o => h.get_prop o gb))).map
          (fun v => (h.propName gb ++ " with value " ++ h.valStr v,
            fun obj => decide (h.get_prop obj gb = v))) := by
    unfold build_unique_val_groups
    rw [hkeys]
    rw [show (firstSeen (objs.map (fun o => h.get_prop o gb))).foldl
          (fun acc val => dictSet acc (h.propName gb ++ " with value " ++ h.valStr val)
            (fun obj => decide (h.get_prop obj gb = val))) []
        = ((firstSeen (objs.map (fun o => h.get_prop o gb))).map
            (fun v => (h.propName gb ++ " with value " ++ h.valStr v,
              fun obj => decide (h.get_prop obj gb = v)))).foldl
            (fun a kv => dictSet a kv.1 kv.2) []
      from (List.foldl_map
        (fun v : V => (h.propName gb ++ " with value " ++ h.valStr v,
          fun obj => decide (h.get_prop obj gb = v)))
        (fun a kv => dictSet a kv.1 kv.2)
        (firstSeen (objs.map (fun o => h.get_prop o gb))) []).symm]
    exact foldl_dictSet_nodup _ hnamesnd
  rw [hbuild, run_group_by_nodup objs _ (by rw [← hbuild]; rw [hbuild]; exact hnamesnd),
    List.map_map]
  rfl

/-- Reduction of `runParser` in the grouped, auto-derived case: with a group
property set and no explicit mappings, the output is one group per distinct
observed value of the (sorted) records. -/
theorem run_parser_auto_groups [DecidableEq P] [DecidableEq V] [LinearOrder V]
    (h : PropHandler P R V) (st : QueryParserState P R V) (gb : P) (l : List R)
    (hgb : st.group_by = some gb) (hmap : st.group_mappings = [])
    (hl : l.isEmpty = false)
    (hinj : ∀ x ∈ l, ∀ y ∈ l,
      h.valStr (h.get_prop x gb) = h.valStr (h.get_prop y gb) →
        h.get_prop x gb = h.get_prop y gb) :
    runParser h st l
      = (sortedRecords h st l, .grouped (autoGroupsSpec h gb (sortedRecords h st l))) := by
  have hinj' : ∀ x ∈ sortedRecords h st l, ∀ y ∈ sortedRecords h st l,
      h.valStr (h.get_prop x gb) = h.valStr (h.get_prop y gb) →
        h.get_prop x gb = h.get_prop y gb := by
    intro x hx y hy
    exact hinj x ((sortedRecords_perm h st l).mem_iff.mp hx)
      y ((sortedRecords_perm h st l).mem_iff.mp hy)
  have hmain := run_group_by_build_unique h gb (sortedRecords h st l) hinj'
  unfold runParser
  rw [hl, if_neg Bool.false_ne_true, hgb, hmap, ← hmain]
  rfl

/-- C7: grouping by a property with no explicit ranges yields one group per
distinct observed value of that property, in first-seen order over the
(sorted, when a sort spec was applied) records, each group holding exactly
the records with that value, under a name encoding the property name and the
value; the hypothesis asks distinct values to render to distinct strings, as
the group dict is keyed on the rendered name. -/
theorem C7_auto_unique_groups [DecidableEq P] [DecidableEq V] [LinearOrder V]
    (h : PropHandler P R V) (st : QueryParserState P R V) (gb : P) (l : List R)
    (hgb : st.group_by = some gb) (hmap : st.group_mappings = [])
    (hl : l.isEmpty = false)
    (hinj : ∀ x ∈ l, ∀ y ∈ l,
      h.valStr (h.get_prop x gb) = h.valStr (h.get_prop y gb) →
        h.get_prop x gb = h.get_prop y gb) :
    runParser h st l
      = (sortedRecords h st l, .grouped (autoGroupsSpec h gb (sortedRecords h st l)))
    ∧ (autoGroupsSpec h gb (sortedRecords h st l)).map Prod.fst
      = (firstSeen ((sortedRecords h st l).map (fun o => h.get_prop o gb))).map
          (fun v => h.propName gb ++ " with value " ++ h.valStr v) := by
  refine ⟨run_parser_auto_groups h st gb l hgb hmap hl hinj, ?_⟩
  unfold autoGroupsSpec
  rw [List.map_map]
  rfl

/-- The parser state of the concrete C7 check: grouping configured, no
ranges, no sorting. -/
def c7State : QueryParserState Unit Nat Nat :=
  { sort_by := [], group_by := some (), group_mappings := [] }

/-- Concrete check of C7: values [2,1,2,3] yield three groups in first-seen
order 2, 1, 3, the value-2 group holding both its records. -/
theorem C7_auto_unique_groups_witness :
    (c7State.group_by = some () ∧ c7State.group_mappings = []
      ∧ ([2, 1, 2, 3] : List Nat).isEmpty = false)
    ∧ runParser natUnitHandler c7State [2, 1, 2, 3]
      = ([2, 1, 2, 3], .grouped
          [("prop_x with value 2", [2, 2]),
           ("prop_x with value 1", [1]),
           ("prop_x with value 3", [3])]) := by
  have hmain := (C7_auto_unique_groups natUnitHandler c7State () [2, 1, 2, 3]
    rfl rfl rfl (by decide)).1
  refine ⟨⟨rfl, rfl, rfl⟩, ?_⟩
  rw [hmain]
  rfl

/-! ### Claim C10 -/

/-- C10: `parse_group_by` with no ranges and `include_missing=True` records
no group predicates (the flag only matters when explicit ranges are given),
so a subsequent `runParser` auto-derives one group per distinct observed
value and never produces an "ungrouped results" group. -/
theorem C10_group_ranges_none [DecidableEq P] [DecidableEq V] [LinearOrder V]
    (h : PropHandler P R V) (gb : P) (hsup : h.check_supported gb = true) :
    parse_group_by h (freshParser : QueryParserState P R V) gb none true
      = .ok { sort_by := [], group_by := some gb, group_mappings := [] }
    ∧ (∀ l : List R, l.isEmpty = false →
        (∀ x ∈ l, ∀ y ∈ l, h.valStr (h.get_prop x gb) = h.valStr (h.get_prop y gb) →
          h.get_prop x gb = h.get_prop y gb) →
        runParser h
            ({ sort_by := [], group_by := some gb, group_mappings := [] } : QueryParserState P R V) l
          = (l, .grouped (autoGroupsSpec h gb l))
        ∧ "ungrouped results" ∉ (autoGroupsSpec h gb l).map Prod.fst) := by
  constructor
  · unfold parse_group_by freshParser
    rw [hsup, if_pos rfl]
  · intro l hl hinj
    constructor
    · exact run_parser_auto_groups h
        { sort_by := [], group_by := some gb, group_mappings := [] } gb l rfl rfl hl hinj
    · intro hmem
      unfold autoGroupsSpec at hmem
      rw [List.map_map] at hmem
      obtain ⟨v, _, hveq⟩ := List.mem_map.mp hmem
      exact with_value_ne_ungrouped (h.propName gb) (h.valStr v) hveq

/-- Concrete check of C10: no predicates recorded, auto-derived groups, and
no "ungrouped results" group. -/
theorem C10_group_ranges_none_witness :
    parse_group_by natUnitHandler freshParser () none true
      = .ok { sort_by := [], group_by := some (), group_mappings := [] }
    ∧ runParser natUnitHandler
        ({ sort_by := [], group_by := some (), group_mappings := [] } : QueryParserState Unit Nat Nat)
        [1, 5]
      = ([1, 5], .grouped [("prop_x with value 1", [1]), ("prop_x with value 5", [5])])
    ∧ "ungrouped results" ∉ (autoGroupsSpec natUnitHandler () [1, 5]).map Prod.fst := by
  obtain ⟨h1, h2⟩ := C10_group_ranges_none natUnitHandler () rfl
  obtain ⟨h2a, h2b⟩ := h2 [1, 5] rfl (by decide)
  refine ⟨h1, ?_, h2b⟩
  rw [h2a]
  rfl





end StackQuery
